import Mathlib

/-!
Shallow embedding of the market-data resolution and quoting layer of
`app/providers.py` (tg-fin-assistant).

Modelling conventions:
* Python floats are modelled as rationals (`ℚ`); the numeric operations the
  claims exercise (division by 100, comparisons against decimal thresholds)
  are exact on the decimal values involved.
* The outbound HTTP layer (`_http_get`, with its bounded retry that re-raises
  the final transport error) is modelled by an environment function
  `Env.http : HttpReq → HttpOutcome`; one logical upstream call appends one
  `HttpReq` to the returned trace.
* Each module-level cache (`_QUOTE_CACHE`, `_SECURITY_CACHE`,
  `_HISTORY_CACHE`, `_KEY_RATE_CACHE`) is passed and returned explicitly by
  the functions that touch it, mirroring the Python globals.
* `datetime` parsing/formatting of upstream timestamp strings
  (`_extract_timestamp`'s per-value parse, `_to_iso`'s per-value parse) is
  abstracted as environment functions; the surrounding field-selection and
  truthiness logic is translated from the source.
* Python exceptions are an explicit `Except` result; `PErr` distinguishes
  `requests.RequestException`, `_NotFoundError`, `MarketDataError` and its
  subclass `AggregatorAuthError`.
-/

/-- JSON primitive values (`None`, numbers, strings, booleans). -/
inductive JPrim where
  | null
  | num (q : ℚ)
  | str (s : String)
  | bool (b : Bool)
deriving DecidableEq, Repr

/-- A JSON object with primitive values, i.e. one data row (`dict[str, Any]`). -/
abbrev Row := List (String × JPrim)

/-- One named block inside an ISS payload: either a list of row objects, a
columnar `{columns, data}` block, or some other value (normalised to no rows). -/
inductive TVal where
  | rows (rs : List Row)
  | grid (columns : List String) (data : List (List JPrim))
  | prim (v : JPrim)
deriving DecidableEq, Repr

/-- A parsed JSON response body: a top-level object whose values are blocks
(`TVal.prim` values make it a flat object such as Binance's `{"price": ...}`),
or a top-level list of such objects. -/
inductive Payload where
  | dict (entries : List (String × TVal))
  | list (blocks : List (List (String × TVal)))
deriving DecidableEq, Repr

/-- The upstream endpoints `providers.py` contacts, with the parameters that
vary between calls. -/
inductive HttpReq where
  | security (ticker : String)
  | marketdata (engine market board ticker : String)
  | dailyClose (market board secid day : String)
  | history (engine market ticker cutoff : String) (start : Nat)
  | binance (symbol : String)
  | twelvedata (symbol : String)
  | finnhub (symbol : String)
  | ruonia
  | cbr
deriving DecidableEq, Repr

/-- Result of one logical `_http_get` call: a transport failure surviving the
bounded retry (`reraise=True`), or a response with a status code and body. -/
inductive HttpOutcome where
  | exc
  | resp (status : Nat) (body : Payload)
deriving DecidableEq, Repr

/-- The Python exceptions that cross function boundaries in this module. -/
inductive PErr where
  | request
  | notFound
  | marketData (msg : String)
  | aggregatorAuth
deriving DecidableEq, Repr

/-- Whether an exception is caught by `except MarketDataError`
(`AggregatorAuthError` is a subclass of `MarketDataError`). -/
def PErr.isMarketData : PErr → Bool
  | .marketData _ => true
  | .aggregatorAuth => true
  | _ => false

/-- The configuration fields of `app/config.py` that `providers.py` reads. -/
structure Settings where
  TWELVEDATA_API_KEY : Option String
  FINNHUB_API_KEY : Option String
  CACHE_TTL_SEC : ℚ
  KEY_RATE_FALLBACK : Option ℚ
deriving DecidableEq, Repr

/-- The ambient world of one call: configuration, the HTTP collaborator, the
clock (seconds since epoch plus its rendered forms), and the abstracted
datetime-parsing collaborator. -/
structure Env where
  settings : Settings
  http : HttpReq → HttpOutcome
  now : ℚ
  nowIso : String
  nowDate : String
  pastDate : Nat → String
  tsParse : JPrim → Option String
  toIsoParse : JPrim → Option String

/-- `SourceRoute.name` literals. -/
inductive RName where
  | MOEX
  | BINANCE
  | AGGREGATOR
  | UNKNOWN
deriving DecidableEq, Repr

def rnameStr : RName → String
  | .MOEX => "MOEX"
  | .BINANCE => "BINANCE"
  | .AGGREGATOR => "AGGREGATOR"
  | .UNKNOWN => "UNKNOWN"

/-- `Quote.source` literals. -/
inductive QSource where
  | MOEX
  | BINANCE
  | TWELVEDATA
  | FINNHUB
  | CBR
  | UNKNOWN
deriving DecidableEq, Repr

/-- The `SourceRoute` dataclass. -/
structure SourceRoute where
  name : RName
  symbol : String
  board : Option String := none
  market : Option String := none
  engine : Option String := none
  reason : Option String := none
  currency : Option String := none
deriving DecidableEq, Repr

/-- The `Quote` dataclass. -/
structure Quote where
  ticker : String
  price : Option ℚ
  currency : String
  ts_utc : Option String
  source : QSource
  board : Option String := none
  market : Option String := none
  reason : Option String := none
  lot : Option Int := none
  change : Option ℚ := none
  volume : Option ℚ := none
  value : Option ℚ := none
  context : Option String := none
deriving DecidableEq, Repr

/-- `_QUOTE_CACHE`: cache key → (fetch time, quote). -/
abbrev QuoteCache := List (String × (ℚ × Quote))

/-- Parsed ISS tables: table name → rows. -/
abbrev Tables := List (String × List Row)

/-- `_SECURITY_CACHE`: upper-cased ticker → (fetch time, tables). -/
abbrev SecCache := List (String × (ℚ × Tables))

/-- `_HISTORY_CACHE`: (ticker, board, days) → (fetch time, rows). -/
abbrev HistCache := List ((String × String × Nat) × (ℚ × List Row))

/-- `_KEY_RATE_CACHE`. -/
abbrev KeyRateCache := Option (ℚ × ℚ)

/-- Dictionary update (`d[k] = v`): later assignments shadow earlier ones for
`List.lookup`. -/
def dictPut {α β : Type} [BEq α] (k : α) (v : β) (l : List (α × β)) : List (α × β) :=
  (k, v) :: l.filter (fun p => !(p.1 == k))

/-- `row.get(key)` with Python's `None` default. -/
def rget (row : Row) (k : String) : JPrim :=
  (row.lookup k).getD .null

/-- Python truthiness of a JSON primitive. -/
def jTruthy : JPrim → Bool
  | .null => false
  | .num q => !(q == 0)
  | .str s => !(s == "")
  | .bool b => b

/-- Python truthiness of an optional string (e.g. `route.reason`). -/
def truthyOpt : Option String → Bool
  | some s => !(s == "")
  | none => false

/-- Python `a or b` on JSON primitives. -/
def pyOr (a b : JPrim) : JPrim :=
  if jTruthy a then a else b

/-- Python `a or default` where `a` is an optional string and the result is
used as a string. -/
def pyOrStr (a : Option String) (d : String) : String :=
  match a with
  | some s => if s == "" then d else s
  | none => d

/-- Python `rows_option or []` for table lookups (`tables.get(name) or []`). -/
def pyOrRows (a : Option (List Row)) (d : List Row) : List Row :=
  match a with
  | some l => if l.isEmpty then d else l
  | none => d

/-- Python whitespace characters recognised by `str.strip()` (space, tab,
newline, carriage return, vertical tab, form feed), identified by code
point. -/
def isSpaceB (c : Char) : Bool :=
  c.toNat == 32 || c.toNat == 9 || c.toNat == 10 || c.toNat == 13 ||
    c.toNat == 11 || c.toNat == 12

/-- ASCII `str.upper()` on one character. -/
def upChar (c : Char) : Char :=
  if 97 ≤ c.toNat ∧ c.toNat ≤ 122 then Char.ofNat (c.toNat - 32) else c

/-- ASCII `str.lower()` on one character. -/
def lowChar (c : Char) : Char :=
  if 65 ≤ c.toNat ∧ c.toNat ≤ 90 then Char.ofNat (c.toNat + 32) else c

/-- `str.upper()` (ASCII). -/
def pyUpper (s : String) : String :=
  ⟨s.data.map upChar⟩

/-- `str.lower()` (ASCII). -/
def pyLower (s : String) : String :=
  ⟨s.data.map lowChar⟩

/-- Strip a predicate from both ends of a list. -/
def listStrip (p : Char → Bool) (l : List Char) : List Char :=
  ((l.dropWhile p).reverse.dropWhile p).reverse

/-- `str.strip()`. -/
def pyStrip (s : String) : String :=
  ⟨listStrip isSpaceB s.data⟩

/-- `str.endswith(suffix)`. -/
def pyEndsWith (s suf : String) : Bool :=
  suf.data.isSuffixOf s.data

/-- Naive substring containment (`pat in s`). -/
def listContains (pat : List Char) : List Char → Bool
  | [] => pat.isEmpty
  | c :: rest => pat.isPrefixOf (c :: rest) || listContains pat rest

/-- Python `pat in s` on strings. -/
def strContains (s pat : String) : Bool :=
  listContains pat.data s.data

/-- Digits of a character list read as a natural number. -/
def digitsToNat (l : List Char) : Nat :=
  l.foldl (fun acc c => acc * 10 + (c.toNat - 48)) 0

/-- Exponent tail of a float literal (after `e`/`E`). -/
def parseExpTail (base : ℚ) (cs : List Char) : Option ℚ :=
  let (esign, cs1) :=
    match cs with
    | '+' :: r => ((1 : Int), r)
    | '-' :: r => ((-1 : Int), r)
    | r => ((1 : Int), r)
  let (ed, rest) := cs1.span Char.isDigit
  if ed.isEmpty || !rest.isEmpty then none
  else some (base * (10 : ℚ) ^ (esign * (digitsToNat ed : Int)))

/-- Python `float(str)` restricted to decimal literals: optional surrounding
whitespace, optional sign, digits with optional fraction, optional exponent
(`inf`/`nan` literals are out of scope and yield `none`). -/
def parseFloat (s : String) : Option ℚ :=
  let cs := listStrip isSpaceB s.data
  let (sign, cs1) :=
    match cs with
    | '+' :: r => ((1 : ℚ), r)
    | '-' :: r => ((-1 : ℚ), r)
    | r => ((1 : ℚ), r)
  let (ip, rest) := cs1.span Char.isDigit
  match rest with
  | [] => if ip.isEmpty then none else some (sign * (digitsToNat ip : ℚ))
  | '.' :: r2 =>
    let (fp, rest2) := r2.span Char.isDigit
    if ip.isEmpty && fp.isEmpty then none
    else
      let base : ℚ := sign * ((digitsToNat ip : ℚ) + (digitsToNat fp : ℚ) / (10 : ℚ) ^ fp.length)
      match rest2 with
      | [] => some base
      | e :: r3 => if e == 'e' || e == 'E' then parseExpTail base r3 else none
  | e :: r3 =>
    if e == 'e' || e == 'E' then
      if ip.isEmpty then none else parseExpTail (sign * (digitsToNat ip : ℚ)) r3
    else none

/-- Python `int(str)` restricted to decimal integer literals. -/
def parseIntStr (s : String) : Option Int :=
  let cs := listStrip isSpaceB s.data
  let (sign, cs1) :=
    match cs with
    | '+' :: r => ((1 : Int), r)
    | '-' :: r => ((-1 : Int), r)
    | r => ((1 : Int), r)
  if cs1.isEmpty || !(cs1.all Char.isDigit) then none
  else some (sign * (digitsToNat cs1 : Int))

/-- Truncation toward zero, as Python `int(float)`. -/
def ratTrunc (q : ℚ) : Int :=
  q.num / (q.den : Int)

/-- Python `float(value)` on a JSON primitive (no comma replacement). -/
def pyFloat : JPrim → Option ℚ
  | .null => none
  | .num q => some q
  | .bool b => some (if b then 1 else 0)
  | .str s => parseFloat s

/-- Python `int(value)` on a JSON primitive. -/
def pyIntOpt : JPrim → Option Int
  | .null => none
  | .num q => some (ratTrunc q)
  | .bool b => some (if b then 1 else 0)
  | .str s => parseIntStr s

/-- Python `str(value)` on a JSON primitive. -/
def primStr : JPrim → String
  | .null => "None"
  | .num q => toString q
  | .str s => s
  | .bool b => if b then "True" else "False"

/-- `_safe_float`. -/
def _safe_float (v : JPrim) : Option ℚ :=
  match v with
  | .null => none
  | .num q => some q
  | .bool b => some (if b then 1 else 0)
  | .str s => if s == "" then none else parseFloat (s.replace "," ".")

/-- `_normalize_table`. -/
def _normalize_table : TVal → List Row
  | .rows rs => rs
  | .grid columns data =>
    if !columns.isEmpty && !data.isEmpty then data.map (fun r => columns.zip r) else []
  | .prim _ => []

/-- `_parse_iss_tables`. -/
def _parse_iss_tables : Payload → Tables
  | .dict entries => entries.map (fun p => (p.1, _normalize_table p.2))
  | .list blocks =>
    blocks.foldl (fun acc block =>
      block.foldl (fun acc2 p => dictPut p.1 (_normalize_table p.2) acc2) acc) []

/-- `payload.get(key)` on a flat response object; a block value (as opposed to
a primitive) behaves like `None` for the primitive-level consumers. -/
def jget (p : Payload) (k : String) : JPrim :=
  match p with
  | .dict entries =>
    match entries.lookup k with
    | some (.prim v) => v
    | _ => .null
  | .list _ => .null

/-- `tables.get(name)`. -/
def tlookup (t : Tables) (k : String) : Option (List Row) :=
  t.lookup k

/-- `response.raise_for_status()` raises for HTTP 4xx/5xx. -/
def status_exception (status : Nat) : Bool :=
  decide (400 ≤ status) && decide (status < 600)

/-- `_is_true`. -/
def _is_true : JPrim → Bool
  | .bool b => b
  | .num q => !(q == 0)
  | .str s =>
    let t := pyLower (pyStrip s)
    t == "1" || t == "true" || t == "yes" || t == "y"
  | .null => false

/-- `_pick_traded_board`. -/
def _pick_traded_board (rows : List Row) : Option Row :=
  rows.find? (fun row =>
    let v := rget row "is_traded"
    let v2 := if v == .null then rget row "IS_TRADED" else v
    _is_true v2)

/-- `_find_row_by_board`. -/
def _find_row_by_board (rows : List Row) (board : String) : Option Row :=
  let target := pyUpper board
  rows.find? (fun row =>
    ["BOARDID", "BOARD"].any (fun k =>
      let v := rget row k
      jTruthy v && (pyUpper (primStr v) == target)))

/-- `_extract_price`. -/
def _extract_price (row : Row) : Option ℚ :=
  ["LAST", "LCURRENTPRICE", "MARKETPRICE3", "MARKETPRICE", "LASTTOPREVPRICE", "CLOSE"].findSome?
    (fun f =>
      match _safe_float (rget row f) with
      | some v => if 0 < v then some v else none
      | none => none)

/-- `_extract_lot`. -/
def _extract_lot (secRow mdRow : Row) : Option Int :=
  [mdRow, secRow].findSome? (fun src =>
    let raw := rget src "LOTSIZE"
    if raw == .null then none
    else
      match pyFloat raw with
      | none => none
      | some q =>
        let lot := ratTrunc q
        if 0 < lot then some lot else none)

/-- `_extract_currency`. -/
def _extract_currency (secRow mdRow : Row) : String :=
  match [secRow, mdRow].findSome? (fun src =>
      ["FACEUNIT", "CURRENCYID", "SETTLECURRENCY"].findSome? (fun k =>
        let raw := rget src k
        if jTruthy raw then some raw else none)) with
  | some raw =>
    let code := pyUpper (primStr raw)
    if code == "RUB" || code == "SUR" then "SUR" else code
  | none => "SUR"

/-- `_extract_timestamp`: the field-selection loop from the source; parsing of
an individual raw value into a UTC datetime is the abstracted
`Env.tsParse` collaborator. -/
def _extract_timestamp (env : Env) (row : Row) : Option String :=
  ["SYSTIME", "TIME", "UPDATETIME", "DATETIME"].findSome? (fun f =>
    let raw := rget row f
    if jTruthy raw then env.tsParse raw else none)

/-- `_to_iso`: the `value in (None, "")` guard from the source; parsing of the
remaining values is the abstracted `Env.toIsoParse` collaborator. -/
def _to_iso (env : Env) (v : JPrim) : Option String :=
  if v == .null || v == .str "" then none else env.toIsoParse v

/-- `_CRYPTO_PAIR_RE` (`^[A-Z]{3,10}(USDT|BTC|BUSD)$`) as a decidable match. -/
def _crypto_pair_match (s : String) : Bool :=
  ["USDT", "BTC", "BUSD"].any (fun suf =>
    let d := s.data
    let n := d.length - suf.length
    suf.data.isSuffixOf d && decide (3 ≤ n) && decide (n ≤ 10) &&
      (d.take n).all (fun c => decide ('A' ≤ c) && decide (c ≤ 'Z')))

/-- `_ALWAYS_AGGREGATOR`: each preset is its literal key/value dictionary. -/
def _ALWAYS_AGGREGATOR : List (String × List (String × String)) :=
  [("FXIT", [("symbol", "FXIT.MOEX"), ("currency", "SUR"), ("reason", "delisted_from_moex")]),
   ("FXWO", [("symbol", "FXWO.MOEX"), ("currency", "SUR"), ("reason", "delisted_from_moex")]),
   ("FXGD", [("symbol", "FXGD.MOEX"), ("currency", "SUR"), ("reason", "delisted_from_moex")]),
   ("FXRB", [("symbol", "FXRB.MOEX"), ("currency", "SUR"), ("reason", "delisted_from_moex")]),
   ("YNDX", [("symbol", "YNDX.US"), ("currency", "USD"), ("reason", "moex_delisting_announced")])]

/-- `_aggregator_route`. -/
def _aggregator_route (ticker : String) (fallback_reason : String) : Option SourceRoute :=
  match _ALWAYS_AGGREGATOR.lookup ticker with
  | some preset =>
    some { name := .AGGREGATOR,
           symbol := (preset.lookup "symbol").getD (ticker ++ ".MOEX"),
           reason := some (pyOrStr (preset.lookup "reason") fallback_reason),
           currency := preset.lookup "currency" }
  | none =>
    some { name := .AGGREGATOR,
           symbol := ticker ++ ".MOEX",
           reason := some fallback_reason,
           currency := some "SUR" }

/-- `_market_candidates`. -/
def _market_candidates (board : String) : List (String × String) :=
  let mapping : List (String × List (String × String)) :=
    [("TQBR", [("stock", "shares")]),
     ("TQTD", [("stock", "shares")]),
     ("SMAL", [("stock", "shares")]),
     ("FQBR", [("stock", "shares")]),
     ("TQTF", [("stock", "etf"), ("stock", "shares")]),
     ("TQOB", [("stock", "bonds")]),
     ("TQCB", [("stock", "bonds")]),
     ("TQOD", [("stock", "bonds")]),
     ("SNDX", [("stock", "index")]),
     ("TOM", [("currency", "selt"), ("currency", "spot")])]
  match mapping.lookup (pyUpper board) with
  | some candidates => if candidates.isEmpty then defaultCandidates else candidates
  | none => defaultCandidates
where
  defaultCandidates : List (String × String) :=
    [("stock", "shares"), ("stock", "etf"), ("stock", "bonds"),
     ("stock", "index"), ("currency", "selt")]

/-- Ticker normalisation used by `resolve_source` and `get_quote`
(`ticker.upper().strip()`). -/
def normT (t : String) : String :=
  pyStrip (pyUpper t)

/-- Fetch-and-cache part of `_get_security_tables` (the code after a cache
miss). -/
def _get_security_tables_fetch (key : String) (env : Env) (sc : SecCache) :
    Except PErr Tables × SecCache × List HttpReq :=
  match env.http (.security key) with
  | .exc => (.error .request, sc, [.security key])
  | .resp status body =>
    if status == 404 then (.error .notFound, sc, [.security key])
    else if status_exception status then (.error .request, sc, [.security key])
    else
      let tables := _parse_iss_tables body
      (.ok tables, dictPut key (env.now, tables) sc, [.security key])

/-- `_get_security_tables`. -/
def _get_security_tables (ticker : String) (env : Env) (sc : SecCache) :
    Except PErr Tables × SecCache × List HttpReq :=
  let key := pyUpper ticker
  match sc.lookup key with
  | some (t0, tables) =>
    if env.now - t0 < env.settings.CACHE_TTL_SEC then (.ok tables, sc, [])
    else _get_security_tables_fetch key env sc
  | none => _get_security_tables_fetch key env sc

/-- The `UNKNOWN` route constructed by `resolve_source`. -/
def unknownRoute (symbol : String) : SourceRoute :=
  { name := .UNKNOWN, symbol := symbol, reason := some "unknown_ticker", currency := some "SUR" }

/-- The route `resolve_source` builds from a static-override preset. -/
def presetRoute (symbol : String) (preset : List (String × String)) : SourceRoute :=
  { name := .AGGREGATOR,
    symbol := (preset.lookup "symbol").getD (symbol ++ ".MOEX"),
    reason := preset.lookup "reason",
    currency := preset.lookup "currency" }

/-- The board/market/engine extraction of `resolve_source` once a traded board
row was picked. -/
def moexRouteOfBoardRow (symbol : String) (board_row : Row) : SourceRoute :=
  let board_str := pyUpper (primStr (pyOr (rget board_row "boardid") (pyOr (rget board_row "board") (.str ""))))
  let board_code := if board_str == "" then none else some board_str
  let market := pyLower (primStr (pyOr (rget board_row "market") (.str "shares")))
  let engine := pyLower (primStr (pyOr (rget board_row "engine") (.str "stock")))
  { name := .MOEX, symbol := symbol, board := board_code, market := some market,
    engine := some engine, currency := some "SUR" }

/-- The part of `resolve_source` that inspects the fetched security tables. -/
def routeFromTables (symbol : String) (tables : Tables) : SourceRoute :=
  let boards := pyOrRows (tlookup tables "boards") []
  match _pick_traded_board boards with
  | some board_row => moexRouteOfBoardRow symbol board_row
  | none =>
    if !boards.isEmpty then
      match _aggregator_route symbol "no_active_trading_on_moex" with
      | some fallback => fallback
      | none =>
        { name := .MOEX, symbol := symbol, reason := some "no_active_trading_on_moex",
          currency := some "SUR" }
    else
      match _aggregator_route symbol "unknown_ticker" with
      | some fallback => fallback
      | none => unknownRoute symbol

/-- `resolve_source`. -/
def resolve_source (ticker : String) (env : Env) (sc : SecCache) :
    Except PErr SourceRoute × SecCache × List HttpReq :=
  let symbol := normT ticker
  if symbol == "" then (.ok (unknownRoute ""), sc, [])
  else
    match _ALWAYS_AGGREGATOR.lookup symbol with
    | some preset => (.ok (presetRoute symbol preset), sc, [])
    | none =>
      if _crypto_pair_match symbol then
        (.ok { name := .BINANCE, symbol := symbol,
               currency := some (if pyEndsWith symbol "USDT" then "USDT" else "USD") }, sc, [])
      else
        match _get_security_tables symbol env sc with
        | (.error .notFound, sc1, tr) =>
          (match _aggregator_route symbol "unknown_ticker" with
           | some fallback => (.ok fallback, sc1, tr)
           | none => (.ok (unknownRoute symbol), sc1, tr))
        | (.error .request, sc1, tr) =>
          (match _aggregator_route symbol "moex_unavailable" with
           | some fallback => (.ok fallback, sc1, tr)
           | none => (.error (.marketData "не удалось определить источник котировки"), sc1, tr))
        | (.error e, sc1, tr) => (.error e, sc1, tr)
        | (.ok tables, sc1, tr) => (.ok (routeFromTables symbol tables), sc1, tr)

/-- `get_daily_close_moex`. -/
def get_daily_close_moex (secid board market day : String) (env : Env) :
    Except PErr (Option ℚ) × List HttpReq :=
  let req := HttpReq.dailyClose market board secid day
  match env.http req with
  | .exc => (.ok none, [req])
  | .resp status body =>
    if status == 404 then (.ok none, [req])
    else if status_exception status then (.error .request, [req])
    else
      let rows := pyOrRows (tlookup (_parse_iss_tables body) "history") []
      match rows.getLast? with
      | none => (.ok none, [req])
      | some last =>
        (.ok (["CLOSE", "LEGALCLOSEPR", "LCLOSEPRICE"].findSome? (fun f => _safe_float (rget last f))),
         [req])

/-- Market-data row selection in `_get_moex_quote`
(`_find_row_by_board(marketdata, board) or (marketdata[0] if marketdata else {})`). -/
def moexMdRow (marketdata : List Row) (board : String) : Row :=
  match _find_row_by_board marketdata board with
  | some r => r
  | none => marketdata.headD []

/-- `_get_moex_quote`. -/
def _get_moex_quote (ticker : String) (route : SourceRoute) (env : Env) (sc : SecCache) :
    Except PErr Quote × SecCache × List HttpReq :=
  if !(truthyOpt route.board) || !(truthyOpt route.market) then
    (.ok { ticker := ticker, price := none, currency := pyOrStr route.currency "SUR",
           ts_utc := none, source := .MOEX, board := route.board, market := route.market,
           reason := some (pyOrStr route.reason "no_active_trading_on_moex") }, sc, [])
  else
    let board := route.board.getD ""
    let market := route.market.getD ""
    match _get_security_tables ticker env sc with
    | (.error e, sc1, tr) => (.error e, sc1, tr)
    | (.ok tables, sc1, tr) =>
      let securities := pyOrRows (tlookup tables "securities") []
      let sec_row := securities.headD []
      let engine := pyOrStr route.engine "stock"
      let req := HttpReq.marketdata engine market board ticker
      match env.http req with
      | .exc => (.error .request, sc1, tr ++ [req])
      | .resp status body =>
        if status_exception status then (.error .request, sc1, tr ++ [req])
        else
          let md_tables := _parse_iss_tables body
          let marketdata := pyOrRows (tlookup md_tables "marketdata") []
          let md_row := moexMdRow marketdata board
          let price := _extract_price md_row
          let lot := _extract_lot sec_row md_row
          let timestamp := _extract_timestamp env md_row
          let change := _safe_float (rget md_row "LASTCHANGEPRCNT")
          let volume := _safe_float (rget md_row "VOLTODAY")
          let value := _safe_float (rget md_row "VALTODAY")
          let currency := _extract_currency sec_row md_row
          let reason := route.reason
          match price with
          | none =>
            (match get_daily_close_moex ticker board market env.nowDate env with
             | (.error e, trc) => (.error e, sc1, tr ++ [req] ++ trc)
             | (.ok none, trc) =>
               (.ok { ticker := ticker, price := none, currency := currency, ts_utc := none,
                      source := .MOEX, board := route.board, market := route.market,
                      reason := some (pyOrStr reason "no_trades_no_history"),
                      lot := lot, change := change, volume := volume, value := value },
                sc1, tr ++ [req] ++ trc)
             | (.ok (some close), trc) =>
               let ts_iso := (timestamp.getD env.nowIso)
               (.ok { ticker := ticker, price := some close, currency := currency,
                      ts_utc := some ts_iso, source := .MOEX, board := route.board,
                      market := route.market, reason := some "eod_close_fallback",
                      lot := lot, change := change, volume := volume, value := value },
                sc1, tr ++ [req] ++ trc))
          | some p =>
            let ts_iso := (timestamp.getD env.nowIso)
            (.ok { ticker := ticker, price := some p, currency := currency,
                   ts_utc := some ts_iso, source := .MOEX, board := route.board,
                   market := route.market, reason := reason,
                   lot := lot, change := change, volume := volume, value := value },
             sc1, tr ++ [req])

/-- `_get_binance_quote`. -/
def _get_binance_quote (ticker : String) (route : SourceRoute) (env : Env) :
    Except PErr Quote × List HttpReq :=
  let req := HttpReq.binance route.symbol
  match env.http req with
  | .exc => (.error .request, [req])
  | .resp status body =>
    if status_exception status then (.error .request, [req])
    else
      match _safe_float (jget body "price") with
      | none => (.error (.marketData ("цена не найдена для " ++ route.symbol ++ " на Binance")), [req])
      | some price =>
        let currency := pyOrStr route.currency (if pyEndsWith route.symbol "USDT" then "USDT" else "USD")
        (.ok { ticker := ticker, price := some price, currency := currency,
               ts_utc := some env.nowIso, source := .BINANCE, reason := route.reason }, [req])

/-- `_fetch_twelvedata_quote`. -/
def _fetch_twelvedata_quote (ticker : String) (route : SourceRoute) (env : Env) :
    Except PErr (Option Quote) × List HttpReq :=
  if !(truthyOpt env.settings.TWELVEDATA_API_KEY) then (.error .aggregatorAuth, [])
  else
    let req := HttpReq.twelvedata route.symbol
    match env.http req with
    | .exc => (.error .request, [req])
    | .resp status body =>
      if status == 401 || status == 403 then (.error .aggregatorAuth, [req])
      else if status_exception status then (.error .request, [req])
      else if jget body "status" == .str "error" then
        let message := primStr (pyOr (jget body "message") (.str ""))
        let code := pyIntOpt (jget body "code")
        if code == some 401 || code == some 403 then (.error .aggregatorAuth, [req])
        else
          let lowered := pyLower message
          if strContains lowered "api key" || strContains lowered "apikey" ||
              strContains lowered "unauthorized" then
            (.error .aggregatorAuth, [req])
          else (.ok none, [req])
      else
        match _safe_float (pyOr (jget body "price") (jget body "close")) with
        | none => (.ok none, [req])
        | some price =>
          let ts_iso := _to_iso env (pyOr (jget body "datetime") (jget body "timestamp"))
          let currency :=
            pyUpper (if jTruthy (jget body "currency") then primStr (jget body "currency")
                     else pyOrStr route.currency "USD")
          (.ok (some { ticker := ticker, price := some price, currency := currency,
                       ts_utc := ts_iso, source := .TWELVEDATA, reason := route.reason }), [req])

/-- `_fetch_finnhub_quote`. -/
def _fetch_finnhub_quote (ticker : String) (route : SourceRoute) (env : Env) :
    Except PErr (Option Quote) × List HttpReq :=
  if !(truthyOpt env.settings.FINNHUB_API_KEY) then (.ok none, [])
  else
    let req := HttpReq.finnhub route.symbol
    match env.http req with
    | .exc => (.error .request, [req])
    | .resp status body =>
      if status_exception status then (.error .request, [req])
      else
        match _safe_float (jget body "c") with
        | none => (.ok none, [req])
        | some price =>
          let ts_iso := _to_iso env (jget body "t")
          let currency := pyOrStr route.currency "USD"
          (.ok (some { ticker := ticker, price := some price, currency := currency,
                       ts_utc := ts_iso, source := .FINNHUB, reason := route.reason }), [req])

/-- The degraded quote `_get_aggregator_quote` returns when the credentials are
missing. -/
def missingKeyQuote (ticker : String) (route : SourceRoute) : Quote :=
  { ticker := ticker, price := none, currency := pyOrStr route.currency "USD",
    ts_utc := none, source := .TWELVEDATA, reason := some "missing_api_key",
    context := route.reason }

/-- The reason/context adjustment `_get_aggregator_quote` applies to an
aggregator quote before returning it. -/
def applyRouteReason (route : SourceRoute) (q : Quote) : Quote :=
  if truthyOpt route.reason && !(truthyOpt q.reason) then { q with reason := route.reason }
  else if truthyOpt route.reason && !(q.reason == route.reason) then { q with context := route.reason }
  else q

/-- `_get_aggregator_quote`. -/
def _get_aggregator_quote (ticker : String) (route : SourceRoute) (env : Env) :
    Except PErr Quote × List HttpReq :=
  let step1 : Except PErr (Option Quote) × List HttpReq :=
    match _fetch_twelvedata_quote ticker route env with
    | (.error .aggregatorAuth, tr) => (.error .aggregatorAuth, tr)
    | (.error (.marketData _), tr) => (.ok none, tr)
    | (.error e, tr) => (.error e, tr)
    | (.ok q, tr) => (.ok q, tr)
  match step1 with
  | (.error .aggregatorAuth, tr) => (.ok (missingKeyQuote ticker route), tr)
  | (.error e, tr) => (.error e, tr)
  | (.ok (some q), tr) => (.ok (applyRouteReason route q), tr)
  | (.ok none, tr) =>
    match _fetch_finnhub_quote ticker route env with
    | (.error e, tr2) => (.error e, tr ++ tr2)
    | (.ok (some q), tr2) => (.ok (applyRouteReason route q), tr ++ tr2)
    | (.ok none, tr2) =>
      if !(truthyOpt env.settings.TWELVEDATA_API_KEY) &&
          !(truthyOpt env.settings.FINNHUB_API_KEY) then
        (.ok (missingKeyQuote ticker route), tr ++ tr2)
      else
        (.ok { ticker := ticker, price := none, currency := pyOrStr route.currency "USD",
               ts_utc := none, source := .TWELVEDATA, reason := some "upstream_unavailable",
               context := route.reason }, tr ++ tr2)

/-- The `UNKNOWN`-source quote of `get_quote`'s final branch. -/
def unknownQuote (ticker : String) (route : SourceRoute) : Quote :=
  { ticker := ticker, price := none, currency := pyOrStr route.currency "SUR",
    ts_utc := none, source := .UNKNOWN, reason := some (pyOrStr route.reason "unknown_ticker") }

/-- Dispatch-and-cache part of `get_quote` (the code after a quote-cache
miss). -/
def get_quote_fetch (normalized : String) (route : SourceRoute) (cacheKey : String)
    (env : Env) (qc : QuoteCache) (sc : SecCache) (tr : List HttpReq) :
    Except PErr Quote × QuoteCache × SecCache × List HttpReq :=
  let fetched : Except PErr Quote × SecCache × List HttpReq :=
    match route.name with
    | .MOEX => _get_moex_quote normalized route env sc
    | .BINANCE =>
      let (r, t) := _get_binance_quote normalized route env
      (r, sc, t)
    | .AGGREGATOR =>
      let (r, t) := _get_aggregator_quote normalized route env
      (r, sc, t)
    | .UNKNOWN => (.ok (unknownQuote normalized route), sc, [])
  match fetched with
  | (.error e, sc2, tr2) => (.error e, qc, sc2, tr ++ tr2)
  | (.ok q, sc2, tr2) =>
    if q.price.isSome then (.ok q, dictPut cacheKey (env.now, q) qc, sc2, tr ++ tr2)
    else (.ok q, qc, sc2, tr ++ tr2)

/-- `get_quote`. -/
def get_quote (ticker : String) (env : Env) (qc : QuoteCache) (sc : SecCache) :
    Except PErr Quote × QuoteCache × SecCache × List HttpReq :=
  let normalized := normT ticker
  match resolve_source normalized env sc with
  | (.error e, sc1, tr1) => (.error e, qc, sc1, tr1)
  | (.ok route, sc1, tr1) =>
    let cacheKey := rnameStr route.name ++ ":" ++ route.symbol
    match qc.lookup cacheKey with
    | some (t0, q) =>
      if env.now - t0 < env.settings.CACHE_TTL_SEC then (.ok q, qc, sc1, tr1)
      else get_quote_fetch normalized route cacheKey env qc sc1 tr1
    | none => get_quote_fetch normalized route cacheKey env qc sc1 tr1

/-- `_fetch_ruonia_key_rate`. -/
def _fetch_ruonia_key_rate (env : Env) : Option ℚ × List HttpReq :=
  match env.http .ruonia with
  | .exc => (none, [.ruonia])
  | .resp status body =>
    if status_exception status then (none, [.ruonia])
    else
      let tables := _parse_iss_tables body
      let rows := pyOrRows (tlookup tables "ruonia") (pyOrRows (tlookup tables "data") [])
      match rows with
      | [] => (none, [.ruonia])
      | row :: _ =>
        match ["RUONIA", "RUONIAINDEX", "VALUE"].findSome? (fun f => _safe_float (rget row f)) with
        | none => (none, [.ruonia])
        | some value => (some (if 1.5 < value then value / 100 else value), [.ruonia])

/-- `_fetch_cbr_key_rate`. -/
def _fetch_cbr_key_rate (env : Env) : Option ℚ × List HttpReq :=
  match env.http .cbr with
  | .exc => (none, [.cbr])
  | .resp status body =>
    if status_exception status then (none, [.cbr])
    else
      let raw := pyOr (jget body "KeyRate") (jget body "key_rate")
      if raw == .null || raw == .str "" then (none, [.cbr])
      else
        match _safe_float raw with
        | none => (none, [.cbr])
        | some value => (some (if 1.5 < value then value / 100 else value), [.cbr])

/-- `_KEY_RATE_TTL` (one hour, in seconds). -/
def keyRateTtl : ℚ := 3600

/-- `get_key_rate`. -/
def get_key_rate (env : Env) (kc : KeyRateCache) :
    Except PErr ℚ × KeyRateCache × List HttpReq :=
  match kc with
  | some (t0, r) =>
    if env.now - t0 < keyRateTtl then (.ok r, kc, [])
    else get_key_rate_fetch env kc
  | none => get_key_rate_fetch env kc
where
  /-- The code after a key-rate cache miss. -/
  get_key_rate_fetch (env : Env) (kc : KeyRateCache) :
      Except PErr ℚ × KeyRateCache × List HttpReq :=
    let (r1, tr1) := _fetch_ruonia_key_rate env
    let (rate, tr) :=
      match r1 with
      | some r => (some r, tr1)
      | none =>
        let (r2, tr2) := _fetch_cbr_key_rate env
        (r2, tr1 ++ tr2)
    match rate with
    | some r => (.ok r, some (env.now, r), tr)
    | none =>
      match env.settings.KEY_RATE_FALLBACK with
      | some fallback => (.ok fallback, some (env.now, fallback), tr)
      | none =>
        match kc with
        | some (_, r) => (.ok r, kc, tr)
        | none => (.error (.marketData "не удалось получить ключевую ставку"), kc, tr)

/-- Pagination loop of `get_security_history` for one routing candidate. -/
def historyLoop (env : Env) (engine market ticker cutoff : String) (days : Nat)
    (start : Nat) (collected : List Row) : List Row × List HttpReq :=
  let req := HttpReq.history engine market ticker cutoff start
  match env.http req with
  | .exc => (collected, [req])
  | .resp status body =>
    if status_exception status then (collected, [req])
    else
      let rows := pyOrRows (tlookup (_parse_iss_tables body) "history") []
      if h : rows = [] then (collected, [req])
      else
        let collected2 := collected ++ rows
        if h2 : rows.length < 100 ∨ days ≤ collected2.length then (collected2, [req])
        else
          let (res, tr) := historyLoop env engine market ticker cutoff days (start + rows.length) collected2
          (res, req :: tr)
termination_by days - collected.length
decreasing_by
  have hr : rows = pyOrRows (tlookup (_parse_iss_tables body) "history") [] := rfl
  have hpos : 0 < rows.length := List.length_pos.mpr h
  have hc : collected2.length = collected.length + rows.length := by
    simp only [collected2, List.length_append]
  simp only [not_or, not_lt, not_le] at h2
  rw [← hr]
  simp only [List.length_append]
  omega

/-- Candidate loop of `get_security_history` (`for engine, market in routes`). -/
def historyCandidates (env : Env) (ticker cutoff : String) (days : Nat) :
    List (String × String) → List Row × List HttpReq
  | [] => ([], [])
  | (engine, market) :: rest =>
    let (collected, tr) := historyLoop env engine market ticker cutoff days 0 []
    if collected.isEmpty then
      let (res, tr2) := historyCandidates env ticker cutoff days rest
      (res, tr ++ tr2)
    else (collected, tr)

/-- `get_security_history`. -/
def get_security_history (ticker board : String) (days : Nat) (env : Env) (hc : HistCache) :
    List Row × HistCache × List HttpReq :=
  let board_u := pyUpper board
  let key := (pyUpper ticker, board_u, days)
  match hc.lookup key with
  | some (t0, rows) =>
    if env.now - t0 < 600 then (rows, hc, [])
    else get_security_history_fetch key board_u env hc
  | none => get_security_history_fetch key board_u env hc
where
  /-- The code after a history-cache miss. -/
  get_security_history_fetch (key : String × String × Nat) (board_u : String)
      (env : Env) (hc : HistCache) : List Row × HistCache × List HttpReq :=
    let routes := _market_candidates board_u
    let cutoff := env.pastDate (days * 2)
    let (collected, tr) := historyCandidates env ticker cutoff days routes
    (collected, dictPut key (env.now, collected) hc, tr)

/-! ### String-normalisation lemmas

`resolve_source` re-normalises the already-normalised ticker it receives from
`get_quote`; these lemmas show normalisation is idempotent, so the cache keys
used by the resolver and by the fetchers coincide. -/

theorem char_toNat_ofNat (n : Nat) (h : n < 55296) : (Char.ofNat n).toNat = n := by
  have hv : n.isValidChar := Or.inl h
  simp only [Char.ofNat, hv, dite_true, Char.ofNatAux, Char.toNat]
  rfl

theorem toNat_upChar (c : Char) :
    (upChar c).toNat = if 97 ≤ c.toNat ∧ c.toNat ≤ 122 then c.toNat - 32 else c.toNat := by
  unfold upChar
  by_cases h : 97 ≤ c.toNat ∧ c.toNat ≤ 122
  · rw [if_pos h, if_pos h]
    exact char_toNat_ofNat _ (by omega)
  · rw [if_neg h, if_neg h]

theorem upChar_upChar (c : Char) : upChar (upChar c) = upChar c := by
  by_cases h : 97 ≤ c.toNat ∧ c.toNat ≤ 122
  · have h0 : upChar c = Char.ofNat (c.toNat - 32) := by
      unfold upChar
      rw [if_pos h]
    have ht : (Char.ofNat (c.toNat - 32)).toNat = c.toNat - 32 :=
      char_toNat_ofNat _ (by omega)
    rw [h0]
    unfold upChar
    rw [if_neg (by rw [ht]; omega)]
  · have h0 : upChar c = c := by
      unfold upChar
      rw [if_neg h]
    rw [h0]
    exact h0

theorem isSpaceB_upChar (c : Char) : isSpaceB (upChar c) = isSpaceB c := by
  by_cases h : 97 ≤ c.toNat ∧ c.toNat ≤ 122
  · obtain ⟨ha, hb⟩ := h
    have ht : (upChar c).toNat = c.toNat - 32 := by
      rw [toNat_upChar, if_pos ⟨ha, hb⟩]
    have hL : isSpaceB (upChar c) = false := by
      simp only [isSpaceB, ht, Bool.or_eq_false_iff, beq_eq_false_iff_ne, ne_eq]
      omega
    have hR : isSpaceB c = false := by
      simp only [isSpaceB, Bool.or_eq_false_iff, beq_eq_false_iff_ne, ne_eq]
      omega
    rw [hL, hR]
  · have ht : (upChar c).toNat = c.toNat := by
      rw [toNat_upChar, if_neg h]
    simp only [isSpaceB, ht]

theorem dropWhile_dropWhile {α : Type} (p : α → Bool) (l : List α) :
    (l.dropWhile p).dropWhile p = l.dropWhile p := by
  induction l with
  | nil => rfl
  | cons a t ih =>
    by_cases h : p a
    · simp [List.dropWhile_cons, h, ih]
    · simp [List.dropWhile_cons, h]

theorem dropWhile_head_not {α : Type} (p : α → Bool) (l : List α) (a : α) (t : List α)
    (h : l.dropWhile p = a :: t) : p a = false := by
  induction l with
  | nil => simp at h
  | cons b rest ih =>
    rw [List.dropWhile_cons] at h
    by_cases hb : p b
    · exact ih (by simpa [hb] using h)
    · simp only [hb, if_false] at h
      cases h
      simpa using hb

theorem listStrip_prefix (p : Char → Bool) (l : List Char) :
    (((l.dropWhile p).reverse.dropWhile p).reverse : List Char) <+: l.dropWhile p := by
  have hs : (l.dropWhile p).reverse.dropWhile p <:+ (l.dropWhile p).reverse :=
    List.dropWhile_suffix p
  apply (@List.reverse_suffix Char (((l.dropWhile p).reverse.dropWhile p).reverse)
    (l.dropWhile p)).mp
  simpa using hs

theorem dropWhile_listStrip (p : Char → Bool) (l : List Char) :
    List.dropWhile p (((l.dropWhile p).reverse.dropWhile p).reverse) =
      ((l.dropWhile p).reverse.dropWhile p).reverse := by
  match hmy : ((l.dropWhile p).reverse.dropWhile p).reverse with
  | [] => rfl
  | a :: t =>
    have hpre : (a :: t) <+: l.dropWhile p := by
      rw [← hmy]
      exact listStrip_prefix p l
    obtain ⟨r, hr⟩ := hpre
    have hfa : p a = false := by
      apply dropWhile_head_not p l a (t ++ r)
      rw [← hr]
      simp
    rw [List.dropWhile_cons, hfa]
    simp

theorem listStrip_listStrip (p : Char → Bool) (l : List Char) :
    listStrip p (listStrip p l) = listStrip p l := by
  unfold listStrip
  rw [dropWhile_listStrip p l]
  rw [List.reverse_reverse, dropWhile_dropWhile]

theorem listStrip_map (p : Char → Bool) (f : Char → Char)
    (hp : ∀ c, p (f c) = p c) (l : List Char) :
    listStrip p (l.map f) = (listStrip p l).map f := by
  have hpf : (p ∘ f) = p := by
    funext c
    exact hp c
  unfold listStrip
  rw [List.dropWhile_map, hpf, ← List.map_reverse, List.dropWhile_map, hpf, ← List.map_reverse]

theorem string_data_eq {s t : String} (h : s.data = t.data) : s = t := by
  cases s with
  | mk a =>
    cases t with
    | mk b => exact congrArg String.mk h

theorem pyUpper_pyUpper (s : String) : pyUpper (pyUpper s) = pyUpper s := by
  apply string_data_eq
  simp only [pyUpper, List.map_map]
  congr 1
  funext c
  exact upChar_upChar c

theorem pyStrip_pyUpper (s : String) : pyStrip (pyUpper s) = pyUpper (pyStrip s) := by
  apply string_data_eq
  simp only [pyStrip, pyUpper]
  exact listStrip_map isSpaceB upChar isSpaceB_upChar s.data

theorem pyStrip_pyStrip (s : String) : pyStrip (pyStrip s) = pyStrip s := by
  apply string_data_eq
  simp only [pyStrip]
  exact listStrip_listStrip isSpaceB s.data

theorem normT_idem (t : String) : normT (normT t) = normT t := by
  unfold normT
  rw [pyStrip_pyUpper, pyStrip_pyStrip, pyStrip_pyUpper, pyUpper_pyUpper]

/-! ### Helper predicates and a base environment for witnesses -/

/-- Whether a request is the security/boards lookup used by ticker
resolution. -/
def HttpReq.isSecurity : HttpReq → Bool
  | .security _ => true
  | _ => false

/-- Whether a request goes to one of the two quote aggregators. -/
def HttpReq.isAggregatorCall : HttpReq → Bool
  | .twelvedata _ => true
  | .finnhub _ => true
  | _ => false

/-- A concrete environment whose HTTP collaborator always fails with a
transport error; used to witness reachability-independent statements. -/
def cEnvBase : Env :=
  { settings := { TWELVEDATA_API_KEY := none, FINNHUB_API_KEY := none,
                  CACHE_TTL_SEC := 10, KEY_RATE_FALLBACK := none },
    http := fun _ => .exc,
    now := 0, nowIso := "1970-01-01T00:00:00Z", nowDate := "1970-01-01",
    pastDate := fun _ => "1968-01-01",
    tsParse := fun _ => none, toIsoParse := fun _ => none }

/-! ### Structural lemmas about the resolver -/

theorem aggregator_route_total (t r : String) :
    ∃ fb, _aggregator_route t r = some fb ∧ fb.name = .AGGREGATOR := by
  unfold _aggregator_route
  cases h : _ALWAYS_AGGREGATOR.lookup t with
  | none => exact ⟨_, rfl, rfl⟩
  | some preset => exact ⟨_, rfl, rfl⟩

theorem sec_tables_error_shape (ticker : String) (env : Env) (sc : SecCache)
    (e : PErr) (sc1 : SecCache) (tr : List HttpReq)
    (h : _get_security_tables ticker env sc = (.error e, sc1, tr)) :
    e = .request ∨ e = .notFound := by
  simp only [_get_security_tables, _get_security_tables_fetch] at h
  split at h
  · split at h
    · simp at h
    · split at h
      · simp only [Prod.mk.injEq] at h
        left
        exact (Except.error.inj h.1).symm
      · split at h
        · simp only [Prod.mk.injEq] at h
          right
          exact (Except.error.inj h.1).symm
        · split at h
          · simp only [Prod.mk.injEq] at h
            left
            exact (Except.error.inj h.1).symm
          · simp at h
  · split at h
    · simp only [Prod.mk.injEq] at h
      left
      exact (Except.error.inj h.1).symm
    · split at h
      · simp only [Prod.mk.injEq] at h
        right
        exact (Except.error.inj h.1).symm
      · split at h
        · simp only [Prod.mk.injEq] at h
          left
          exact (Except.error.inj h.1).symm
        · simp at h

theorem routeFromTables_not_unknown (symbol : String) (tables : Tables) :
    (routeFromTables symbol tables).name ≠ .UNKNOWN := by
  unfold routeFromTables
  cases hpick : _pick_traded_board (pyOrRows (tlookup tables "boards") []) with
  | some row => simp [hpick, moexRouteOfBoardRow]
  | none =>
    obtain ⟨fb1, hfb1, hn1⟩ := aggregator_route_total symbol "no_active_trading_on_moex"
    obtain ⟨fb2, hfb2, hn2⟩ := aggregator_route_total symbol "unknown_ticker"
    simp only [hpick, hfb1, hfb2]
    split <;> simp_all

theorem sec_tables_trace_security (ticker : String) (env : Env) (sc : SecCache)
    (res : Except PErr Tables) (sc1 : SecCache) (tr : List HttpReq)
    (h : _get_security_tables ticker env sc = (res, sc1, tr)) :
    ∀ r ∈ tr, r.isSecurity = true := by
  simp only [_get_security_tables, _get_security_tables_fetch] at h
  split at h <;> (try split at h) <;> (try split at h) <;> (try split at h) <;>
      (try split at h) <;>
    (simp only [Prod.mk.injEq] at h
     obtain ⟨-, -, h3⟩ := h
     subst h3
     intro r hr
     simp at hr
     try (subst hr; rfl))

/-- C3: for every ticker present in the static override table
(`_ALWAYS_AGGREGATOR`), `resolve_source` returns an `AGGREGATOR` route carrying
that entry's preset symbol, currency and reason, for every environment and
cache state (so regardless of primary-exchange reachability), and performs no
HTTP request (empty trace — no primary-exchange lookup). -/
theorem C3_static_override_aggregator (env : Env) (sc : SecCache) (t : String)
    (preset : List (String × String))
    (hp : _ALWAYS_AGGREGATOR.lookup (normT t) = some preset) :
    resolve_source t env sc = (.ok (presetRoute (normT t) preset), sc, []) := by
  have hne : normT t ≠ "" := by
    intro he
    rw [he] at hp
    have hnone : _ALWAYS_AGGREGATOR.lookup "" = (none : Option (List (String × String))) := rfl
    rw [hnone] at hp
    exact Option.noConfusion hp
  have hb : (normT t == "") = false := beq_eq_false_iff_ne.mpr hne
  simp only [resolve_source, hb, Bool.false_eq_true, if_false, hp]

/-- Witness for C3: the override entry for YNDX yields its preset aggregator
route against an environment whose primary exchange is unreachable. -/
theorem C3_static_override_aggregator_witness :
    resolve_source "YNDX" cEnvBase [] =
      (.ok (presetRoute (normT "YNDX")
        [("symbol", "YNDX.US"), ("currency", "USD"),
         ("reason", "moex_delisting_announced")]), [], []) :=
  C3_static_override_aggregator cEnvBase [] "YNDX" _ (by decide)

/-- C9 (implicit): for every non-empty normalised ticker, `resolve_source`
always returns (never raises) an `ok` route whose name is not `UNKNOWN` —
in particular it does not raise on a primary-exchange 404 or transport
failure — because `_aggregator_route` always returns a route. -/
theorem C9_resolver_totality :
    (∀ (env : Env) (sc : SecCache) (t : String), normT t ≠ "" →
      ∃ route sc1 tr, resolve_source t env sc = (.ok route, sc1, tr) ∧
        route.name ≠ .UNKNOWN) ∧
    (∀ t reason : String, (_aggregator_route t reason).isSome = true) := by
  constructor
  · intro env sc t hne
    have hb : (normT t == "") = false := beq_eq_false_iff_ne.mpr hne
    cases hp : _ALWAYS_AGGREGATOR.lookup (normT t) with
    | some preset =>
      refine ⟨presetRoute (normT t) preset, sc, [], ?_, ?_⟩
      · simp only [resolve_source, hb, Bool.false_eq_true, if_false, hp]
      · simp [presetRoute]
    | none =>
      by_cases hc : _crypto_pair_match (normT t) = true
      · refine
          ⟨{ name := .BINANCE
             symbol := normT t
             currency := some (if pyEndsWith (normT t) "USDT" then "USDT" else "USD") },
           sc, [], ?_, ?_⟩
        · simp only [resolve_source, hb, Bool.false_eq_true, if_false, hp, hc, if_true]
        · simp
      · have hcf : _crypto_pair_match (normT t) = false := by simpa using hc
        rcases hst : _get_security_tables (normT t) env sc with ⟨res, sc1, tr⟩
        cases res with
        | ok tables =>
          refine ⟨routeFromTables (normT t) tables, sc1, tr, ?_,
            routeFromTables_not_unknown _ _⟩
          simp only [resolve_source, hb, Bool.false_eq_true, if_false, hp, hcf, hst]
        | error e =>
          rcases sec_tables_error_shape _ _ _ _ _ _ hst with he | he <;> subst he
          · obtain ⟨fb, hfb, hn⟩ := aggregator_route_total (normT t) "moex_unavailable"
            refine ⟨fb, sc1, tr, ?_, by simp [hn]⟩
            simp only [resolve_source, hb, Bool.false_eq_true, if_false, hp, hcf, hst, hfb]
          · obtain ⟨fb, hfb, hn⟩ := aggregator_route_total (normT t) "unknown_ticker"
            refine ⟨fb, sc1, tr, ?_, by simp [hn]⟩
            simp only [resolve_source, hb, Bool.false_eq_true, if_false, hp, hcf, hst, hfb]
  · intro t reason
    obtain ⟨fb, hfb, -⟩ := aggregator_route_total t reason
    simp [hfb]

/-- Witness for C9: an unmapped ticker against an unreachable primary exchange
still resolves to a non-`UNKNOWN` route. -/
theorem C9_resolver_totality_witness :
    normT "GAZP" ≠ "" ∧
      (∃ route sc1 tr, resolve_source "GAZP" cEnvBase [] = (.ok route, sc1, tr) ∧
        route.name ≠ .UNKNOWN) :=
  ⟨by decide, C9_resolver_totality.1 cEnvBase [] "GAZP" (by decide)⟩

/-! ### Key-rate lemmas and claims -/

theorem ruonia_trace (env : Env) : (_fetch_ruonia_key_rate env).2 = [.ruonia] := by
  simp only [_fetch_ruonia_key_rate]
  split
  · rfl
  · split
    · rfl
    · split
      · rfl
      · split <;> rfl

theorem cbr_trace (env : Env) : (_fetch_cbr_key_rate env).2 = [.cbr] := by
  simp only [_fetch_cbr_key_rate]
  split
  · rfl
  · split
    · rfl
    · split
      · rfl
      · split <;> rfl

theorem ruonia_pair (env : Env) (r : Option ℚ) (h : (_fetch_ruonia_key_rate env).1 = r) :
    _fetch_ruonia_key_rate env = (r, [.ruonia]) := by
  have ht := ruonia_trace env
  rcases hfr : _fetch_ruonia_key_rate env with ⟨a, tr⟩
  rw [hfr] at h ht
  simp only at h ht
  rw [h, ht]

theorem cbr_pair (env : Env) (r : Option ℚ) (h : (_fetch_cbr_key_rate env).1 = r) :
    _fetch_cbr_key_rate env = (r, [.cbr]) := by
  have ht := cbr_trace env
  rcases hfr : _fetch_cbr_key_rate env with ⟨a, tr⟩
  rw [hfr] at h ht
  simp only at h ht
  rw [h, ht]

/-- C5: `get_key_rate` follows the order RUONIA series → CBR feed → configured
static fallback. With no fresh cached value: a primary success is returned
without contacting the secondary; if both remote fetches yield nothing and a
fallback is configured, the fallback is returned with no exception; only when
both fail, no fallback is configured and no prior cached value exists does it
fail with `MarketDataError`. -/
theorem C5_key_rate_fallback_chain :
    (∀ (env : Env) (r : ℚ), (_fetch_ruonia_key_rate env).1 = some r →
      get_key_rate env none = (.ok r, some (env.now, r), [.ruonia])) ∧
    (∀ (env : Env) (f : ℚ), (_fetch_ruonia_key_rate env).1 = none →
      (_fetch_cbr_key_rate env).1 = none →
      env.settings.KEY_RATE_FALLBACK = some f →
      get_key_rate env none = (.ok f, some (env.now, f), [.ruonia, .cbr])) ∧
    (∀ env : Env, (_fetch_ruonia_key_rate env).1 = none →
      (_fetch_cbr_key_rate env).1 = none →
      env.settings.KEY_RATE_FALLBACK = none →
      get_key_rate env none =
        (.error (.marketData "не удалось получить ключевую ставку"), none, [.ruonia, .cbr])) := by
  refine ⟨?_, ?_, ?_⟩
  · intro env r h1
    have hfr := ruonia_pair env (some r) h1
    simp only [get_key_rate, get_key_rate.get_key_rate_fetch, hfr]
  · intro env f h1 h2 hf
    have hfr := ruonia_pair env none h1
    have hfc := cbr_pair env none h2
    simp only [get_key_rate, get_key_rate.get_key_rate_fetch, hfr, hfc, hf]
    rfl
  · intro env h1 h2 hf
    have hfr := ruonia_pair env none h1
    have hfc := cbr_pair env none h2
    simp only [get_key_rate, get_key_rate.get_key_rate_fetch, hfr, hfc, hf]
    rfl

/-- Environment for the C5 witness: both remote rate sources answer with HTTP
500 and a fallback of 0.123 is configured. -/
def wEnvC5 : Env :=
  { cEnvBase with
    settings := { cEnvBase.settings with KEY_RATE_FALLBACK := some (123/1000) },
    http := fun _ => .resp 500 (.dict []) }

/-- Witness for C5: both sources fail with server errors, the configured
fallback `0.123` is returned and no exception is raised. -/
theorem C5_key_rate_fallback_chain_witness :
    get_key_rate wEnvC5 none = (.ok (123/1000 : ℚ), some (0, 123/1000), [.ruonia, .cbr]) :=
  C5_key_rate_fallback_chain.2.1 wEnvC5 (123/1000) rfl rfl rfl

/-- C6: any successfully fetched raw key-rate value strictly greater than 1.5
is divided by 100 and any raw value at most 1.5 is returned unchanged, in both
the RUONIA fetcher and the CBR fetcher. -/
theorem C6_key_rate_normalisation :
    (∀ (env : Env) (status : Nat) (body : Payload) (row : Row) (rest : List Row) (raw : ℚ),
      env.http .ruonia = .resp status body →
      status_exception status = false →
      pyOrRows (tlookup (_parse_iss_tables body) "ruonia")
        (pyOrRows (tlookup (_parse_iss_tables body) "data") []) = row :: rest →
      ["RUONIA", "RUONIAINDEX", "VALUE"].findSome? (fun f => _safe_float (rget row f)) =
        some raw →
      _fetch_ruonia_key_rate env = (some (if 1.5 < raw then raw / 100 else raw), [.ruonia])) ∧
    (∀ (env : Env) (status : Nat) (body : Payload) (raw : ℚ),
      env.http .cbr = .resp status body →
      status_exception status = false →
      (pyOr (jget body "KeyRate") (jget body "key_rate") == .null ||
        pyOr (jget body "KeyRate") (jget body "key_rate") == .str "") = false →
      _safe_float (pyOr (jget body "KeyRate") (jget body "key_rate")) = some raw →
      _fetch_cbr_key_rate env = (some (if 1.5 < raw then raw / 100 else raw), [.cbr])) := by
  constructor
  · intro env status body row rest raw hh hs hrows hval
    simp only [_fetch_ruonia_key_rate, hh, hs, Bool.false_eq_true, if_false, hrows, hval]
  · intro env status body raw hh hs hraw hval
    simp only [_fetch_cbr_key_rate, hh, hs, Bool.false_eq_true, if_false, hraw, hval]

/-- Environment for the C6 witness: the RUONIA series reports a raw value of
13.50 (a percentage). -/
def wEnvC6a : Env :=
  { cEnvBase with
    http := fun req =>
      match req with
      | .ruonia => .resp 200 (.dict
          [("ruonia", .rows [[("TRADEDATE", .str "2024-10-01"), ("RUONIA", .num (27/2))]])])
      | _ => .exc }

/-- Environment for the C6 witness: the RUONIA series reports a raw value of
0.135 (already a fraction). -/
def wEnvC6b : Env :=
  { cEnvBase with
    http := fun req =>
      match req with
      | .ruonia => .resp 200 (.dict
          [("ruonia", .rows [[("TRADEDATE", .str "2024-10-01"), ("RUONIA", .num (27/200))]])])
      | _ => .exc }

/-- Environment for the C6 witness: the CBR feed reports a raw value of 16. -/
def wEnvC6c : Env :=
  { cEnvBase with
    http := fun req =>
      match req with
      | .cbr => .resp 200 (.dict [("KeyRate", .prim (.num 16))])
      | _ => .exc }

/-- Witness for C6: raw `13.50` normalises to `0.135`, raw `0.135` is returned
unchanged, and the CBR fetcher normalises raw `16` to `0.16`. -/
theorem C6_key_rate_normalisation_witness :
    _fetch_ruonia_key_rate wEnvC6a = (some (27/200 : ℚ), [.ruonia]) ∧
    _fetch_ruonia_key_rate wEnvC6b = (some (27/200 : ℚ), [.ruonia]) ∧
    _fetch_cbr_key_rate wEnvC6c = (some (16/100 : ℚ), [.cbr]) := by
  refine ⟨?_, ?_, ?_⟩
  · have h := C6_key_rate_normalisation.1 wEnvC6a 200 (.dict
      [("ruonia", .rows [[("TRADEDATE", .str "2024-10-01"), ("RUONIA", .num (27/2))]])])
      [("TRADEDATE", .str "2024-10-01"), ("RUONIA", .num (27/2))] [] (27/2)
      rfl rfl rfl rfl
    rw [h, if_pos (by norm_num)]
    exact congrArg
      (fun q : ℚ => ((some q, [HttpReq.ruonia]) : Option ℚ × List HttpReq)) (by norm_num)
  · have h := C6_key_rate_normalisation.1 wEnvC6b 200 (.dict
      [("ruonia", .rows [[("TRADEDATE", .str "2024-10-01"), ("RUONIA", .num (27/200))]])])
      [("TRADEDATE", .str "2024-10-01"), ("RUONIA", .num (27/200))] [] (27/200)
      rfl rfl rfl rfl
    rw [h, if_neg (by norm_num)]
  · have h := C6_key_rate_normalisation.2 wEnvC6c 200
      (.dict [("KeyRate", .prim (.num 16))]) 16 rfl rfl rfl rfl
    rw [h, if_pos (by norm_num)]

/-! ### Quote-cache lemmas and claims -/

theorem mem_dictPut {α β : Type} [BEq α] (k : α) (v : β) (l : List (α × β))
    (e : α × β) (he : e ∈ dictPut k v l) : e = (k, v) ∨ e ∈ l := by
  simp only [dictPut, List.mem_cons, List.mem_filter] at he
  rcases he with he | ⟨he, -⟩
  · exact Or.inl he
  · exact Or.inr he

theorem get_quote_fetch_cache (n : String) (route : SourceRoute) (key : String)
    (env : Env) (qc : QuoteCache) (sc : SecCache) (tr : List HttpReq)
    (res : Except PErr Quote) (qc2 : QuoteCache) (sc2 : SecCache) (tr2 : List HttpReq)
    (h : get_quote_fetch n route key env qc sc tr = (res, qc2, sc2, tr2)) :
    qc2 = qc ∨
      ∃ q, res = .ok q ∧ q.price.isSome = true ∧ qc2 = dictPut key (env.now, q) qc := by
  simp only [get_quote_fetch] at h
  split at h
  · simp only [Prod.mk.injEq] at h
    exact Or.inl h.2.1.symm
  · split at h
    case isTrue hq =>
      simp only [Prod.mk.injEq] at h
      right
      exact ⟨_, h.1.symm, hq, h.2.1.symm⟩
    case isFalse hq =>
      simp only [Prod.mk.injEq] at h
      exact Or.inl h.2.1.symm

/-- C10 (implicit): the quote cache only ever stores quotes with a non-null
price. `get_quote` leaves the quote cache unchanged whenever the produced
quote has `price = None`, and it preserves the invariant that every cached
entry has a non-null price — so a degraded result is never served from the
cache and is recomputed on each call. -/
theorem C10_quote_cache_only_priced :
    (∀ (t : String) (env : Env) (qc : QuoteCache) (sc : SecCache) (q : Quote)
        (qc2 : QuoteCache) (sc2 : SecCache) (tr : List HttpReq),
      get_quote t env qc sc = (.ok q, qc2, sc2, tr) → q.price = none → qc2 = qc) ∧
    (∀ (t : String) (env : Env) (qc : QuoteCache) (sc : SecCache)
        (res : Except PErr Quote) (qc2 : QuoteCache) (sc2 : SecCache) (tr : List HttpReq),
      get_quote t env qc sc = (res, qc2, sc2, tr) →
      (∀ e ∈ qc, e.2.2.price ≠ none) → ∀ e ∈ qc2, e.2.2.price ≠ none) := by
  have main : ∀ (t : String) (env : Env) (qc : QuoteCache) (sc : SecCache)
      (res : Except PErr Quote) (qc2 : QuoteCache) (sc2 : SecCache) (tr : List HttpReq),
      get_quote t env qc sc = (res, qc2, sc2, tr) →
      qc2 = qc ∨ ∃ q, res = .ok q ∧ q.price.isSome = true ∧
        ∃ key, qc2 = dictPut key (env.now, q) qc := by
    intro t env qc sc res qc2 sc2 tr h
    rcases hres : resolve_source (normT t) env sc with ⟨res1, sc1, tr1⟩
    cases res1 with
    | error e =>
      simp only [get_quote, hres, Prod.mk.injEq] at h
      exact Or.inl h.2.1.symm
    | ok route =>
      simp only [get_quote, hres] at h
      split at h
      · split at h
        · simp only [Prod.mk.injEq] at h
          exact Or.inl h.2.1.symm
        · rcases get_quote_fetch_cache _ _ _ _ _ _ _ _ _ _ _ h with h1 | ⟨q, hq1, hq2, hq3⟩
          · exact Or.inl h1
          · exact Or.inr ⟨q, hq1, hq2, _, hq3⟩
      · rcases get_quote_fetch_cache _ _ _ _ _ _ _ _ _ _ _ h with h1 | ⟨q, hq1, hq2, hq3⟩
        · exact Or.inl h1
        · exact Or.inr ⟨q, hq1, hq2, _, hq3⟩
  constructor
  · intro t env qc sc q qc2 sc2 tr h hnone
    rcases main t env qc sc _ qc2 sc2 tr h with h1 | ⟨q2, hq1, hq2, -, -⟩
    · exact h1
    · cases Except.ok.inj hq1
      rw [hnone] at hq2
      simp at hq2
  · intro t env qc sc res qc2 sc2 tr h hinv e he
    rcases main t env qc sc res qc2 sc2 tr h with h1 | ⟨q2, -, hq2, key, hq3⟩
    · rw [h1] at he
      exact hinv e he
    · rw [hq3] at he
      rcases mem_dictPut _ _ _ _ he with he1 | he1
      · rw [he1]
        simp only
        intro hc
        rw [hc] at hq2
        simp at hq2
      · exact hinv e he1

/-- The resolved route for YNDX (used by witnesses). -/
def yndxRoute : SourceRoute :=
  { name := .AGGREGATOR, symbol := "YNDX.US",
    reason := some "moex_delisting_announced", currency := some "USD" }

/-- Witness for C10: a degraded (missing-key) quote is produced with the quote
cache left empty. -/
theorem C10_quote_cache_only_priced_witness :
    get_quote "YNDX" cEnvBase [] [] =
      (.ok (missingKeyQuote "YNDX" yndxRoute), [], [], []) ∧ (([] : QuoteCache) = []) :=
  ⟨rfl, C10_quote_cache_only_priced.1 "YNDX" cEnvBase [] []
    (missingKeyQuote "YNDX" yndxRoute) [] [] [] rfl rfl⟩

/-! ### C8: crypto quotes are binary -/

/-- C8: for a crypto-routed ticker (route name `BINANCE`) on a quote-cache
miss, if the crypto exchange's response contains no parseable price field,
`get_quote` raises `MarketDataError` (and caches nothing); if a price is
present, it returns a quote carrying that price. -/
theorem C8_crypto_hard_failure :
    ∀ (t : String) (env : Env) (qc : QuoteCache) (sc : SecCache) (route : SourceRoute)
      (sc1 : SecCache) (tr1 : List HttpReq) (status : Nat) (body : Payload),
      resolve_source (normT t) env sc = (.ok route, sc1, tr1) →
      route.name = .BINANCE →
      qc.lookup (rnameStr RName.BINANCE ++ ":" ++ route.symbol) = none →
      env.http (.binance route.symbol) = .resp status body →
      status_exception status = false →
      (_safe_float (jget body "price") = none →
        get_quote t env qc sc =
          (.error (.marketData ("цена не найдена для " ++ route.symbol ++ " на Binance")),
           qc, sc1, tr1 ++ [.binance route.symbol])) ∧
      (∀ p : ℚ, _safe_float (jget body "price") = some p →
        ∃ q qc2, get_quote t env qc sc = (.ok q, qc2, sc1, tr1 ++ [.binance route.symbol]) ∧
          q.price = some p) := by
  intro t env qc sc route sc1 tr1 status body hres hname hmiss hhttp hstatus
  constructor
  · intro hprice
    simp only [get_quote, hres, hname, hmiss, get_quote_fetch, _get_binance_quote, hhttp,
      hstatus, Bool.false_eq_true, if_false, hprice]
  · intro p hprice
    refine ⟨{ ticker := normT t, price := some p,
              currency := pyOrStr route.currency
                (if pyEndsWith route.symbol "USDT" then "USDT" else "USD"),
              ts_utc := some env.nowIso, source := .BINANCE, reason := route.reason },
      dictPut (rnameStr RName.BINANCE ++ ":" ++ route.symbol)
        (env.now,
          { ticker := normT t, price := some p,
            currency := pyOrStr route.currency
              (if pyEndsWith route.symbol "USDT" then "USDT" else "USD"),
            ts_utc := some env.nowIso, source := .BINANCE, reason := route.reason }) qc,
      ?_, rfl⟩
    simp only [get_quote, hres, hname, hmiss, get_quote_fetch, _get_binance_quote, hhttp,
      hstatus, Bool.false_eq_true, if_false, hprice, Option.isSome_some, if_true]

/-- Environment for the C8 witness: Binance answers without a parseable price
field. -/
def wEnvC8a : Env :=
  { cEnvBase with
    http := fun req =>
      match req with
      | .binance _ => .resp 200 (.dict [("code", .prim (.num (-1121)))])
      | _ => .exc }

/-- Environment for the C8 witness: Binance answers with a price. -/
def wEnvC8b : Env :=
  { cEnvBase with
    http := fun req =>
      match req with
      | .binance _ => .resp 200 (.dict [("price", .prim (.num 97000))])
      | _ => .exc }

/-- Witness for C8: a missing price raises `MarketDataError`; a present price
is returned as the quote's price. -/
theorem C8_crypto_hard_failure_witness :
    (get_quote "BTCUSDT" wEnvC8a [] [] =
      (.error (.marketData ("цена не найдена для " ++ "BTCUSDT" ++ " на Binance")),
       [], [], [.binance "BTCUSDT"])) ∧
    (∃ q qc2, get_quote "BTCUSDT" wEnvC8b [] [] =
        (.ok q, qc2, [], [.binance "BTCUSDT"]) ∧ q.price = some 97000) := by
  constructor
  · exact (C8_crypto_hard_failure "BTCUSDT" wEnvC8a [] []
      { name := .BINANCE, symbol := "BTCUSDT", currency := some "USDT" } [] [] 200
      (.dict [("code", .prim (.num (-1121)))]) rfl rfl rfl rfl rfl).1 rfl
  · exact (C8_crypto_hard_failure "BTCUSDT" wEnvC8b [] []
      { name := .BINANCE, symbol := "BTCUSDT", currency := some "USDT" } [] [] 200
      (.dict [("price", .prim (.num 97000))]) rfl rfl rfl rfl rfl).2 97000 rfl

/-! ### C2: aggregator short-circuit without credentials -/

theorem resolve_trace_security (t : String) (env : Env) (sc : SecCache)
    (res : Except PErr SourceRoute) (sc1 : SecCache) (tr : List HttpReq)
    (h : resolve_source t env sc = (res, sc1, tr)) :
    ∀ r ∈ tr, r.isSecurity = true := by
  rcases hst : _get_security_tables (normT t) env sc with ⟨res2, sc2, tr2⟩
  have hsec := sec_tables_trace_security _ _ _ _ _ _ hst
  cases res2 with
  | ok tables =>
    simp only [resolve_source, hst] at h
    split at h <;> (try split at h) <;> (try split at h) <;>
      (simp only [Prod.mk.injEq] at h
       obtain ⟨-, -, h3⟩ := h
       subst h3
       intro r hr
       first
         | simp at hr
         | exact hsec r hr)
  | error e =>
    cases e <;>
      (simp only [resolve_source, hst] at h
       split at h <;> (try split at h) <;> (try split at h) <;> (try split at h) <;>
         (simp only [Prod.mk.injEq] at h
          obtain ⟨-, -, h3⟩ := h
          subst h3
          intro r hr
          first
            | simp at hr
            | exact hsec r hr))

theorem security_not_aggregator (r : HttpReq) (h : r.isSecurity = true) :
    r.isAggregatorCall = false := by
  cases r <;> simp_all [HttpReq.isSecurity, HttpReq.isAggregatorCall]

/-- C2: with no API key configured for either aggregator, `get_quote` on an
aggregator-routed ticker (on a quote-cache miss) returns a quote with
`price = None`, source `TWELVEDATA`, reason `missing_api_key` and `context`
equal to the route's original routing reason, leaves the quote cache
unchanged, and issues no HTTP request to either aggregator. -/
theorem C2_aggregator_missing_keys :
    ∀ (t : String) (env : Env) (qc : QuoteCache) (sc : SecCache) (route : SourceRoute)
      (sc1 : SecCache) (tr1 : List HttpReq),
      truthyOpt env.settings.TWELVEDATA_API_KEY = false →
      truthyOpt env.settings.FINNHUB_API_KEY = false →
      resolve_source (normT t) env sc = (.ok route, sc1, tr1) →
      route.name = .AGGREGATOR →
      qc.lookup (rnameStr RName.AGGREGATOR ++ ":" ++ route.symbol) = none →
      get_quote t env qc sc = (.ok (missingKeyQuote (normT t) route), qc, sc1, tr1) ∧
        ∀ r ∈ tr1, r.isAggregatorCall = false := by
  intro t env qc sc route sc1 tr1 htd hfh hres hname hmiss
  constructor
  · simp only [get_quote, hres, hname, hmiss, get_quote_fetch, _get_aggregator_quote,
      _fetch_twelvedata_quote, htd, Bool.not_false, if_true, missingKeyQuote,
      Option.isSome_none, Bool.false_eq_true, if_false, List.append_nil]
  · intro r hr
    exact security_not_aggregator r (resolve_trace_security _ _ _ _ _ _ hres r hr)

/-- Witness for C2: YNDX routes to the aggregator with reason
`moex_delisting_announced`; with both keys unset the degraded quote carries
`missing_api_key` and that reason as context, with no upstream calls at all. -/
theorem C2_aggregator_missing_keys_witness :
    get_quote "YNDX" cEnvBase [] [] =
      (.ok (missingKeyQuote (normT "YNDX") yndxRoute), [], [], []) ∧
      ∀ r ∈ ([] : List HttpReq), r.isAggregatorCall = false :=
  C2_aggregator_missing_keys "YNDX" cEnvBase [] [] yndxRoute [] [] rfl rfl rfl rfl rfl

/-! ### C4: MOEX end-of-day fallback -/

theorem dictPut_lookup {α β : Type} [BEq α] [LawfulBEq α] (k : α) (v : β)
    (l : List (α × β)) : (dictPut k v l).lookup k = some v := by
  simp [dictPut, List.lookup]

theorem sec_tables_ok_fresh (k : String) (env : Env) (sc : SecCache) (tables : Tables)
    (sc2 : SecCache) (tr2 : List HttpReq)
    (httl : 0 < env.settings.CACHE_TTL_SEC)
    (h : _get_security_tables k env sc = (.ok tables, sc2, tr2)) :
    ∃ t0, sc2.lookup (pyUpper k) = some (t0, tables) ∧
      env.now - t0 < env.settings.CACHE_TTL_SEC := by
  rcases hl : sc.lookup (pyUpper k) with _ | ⟨t0, tbl⟩
  · simp only [_get_security_tables, hl, _get_security_tables_fetch] at h
    split at h
    · simp at h
    · split at h
      · simp at h
      · split at h
        · simp at h
        · simp only [Prod.mk.injEq] at h
          obtain ⟨h1, h2, -⟩ := h
          cases Except.ok.inj h1
          subst h2
          refine ⟨env.now, dictPut_lookup _ _ _, by simpa using httl⟩
  · by_cases hc : env.now - t0 < env.settings.CACHE_TTL_SEC
    · simp only [_get_security_tables, hl, if_pos hc] at h
      simp only [Prod.mk.injEq] at h
      obtain ⟨h1, h2, -⟩ := h
      cases Except.ok.inj h1
      subst h2
      exact ⟨t0, hl, hc⟩
    · simp only [_get_security_tables, hl, if_neg hc, _get_security_tables_fetch] at h
      split at h
      · simp at h
      · split at h
        · simp at h
        · split at h
          · simp at h
          · simp only [Prod.mk.injEq] at h
            obtain ⟨h1, h2, -⟩ := h
            cases Except.ok.inj h1
            subst h2
            refine ⟨env.now, dictPut_lookup _ _ _, by simpa using httl⟩

theorem resolve_moex_fresh (t : String) (env : Env) (sc : SecCache) (route : SourceRoute)
    (sc1 : SecCache) (tr : List HttpReq)
    (httl : 0 < env.settings.CACHE_TTL_SEC)
    (h : resolve_source (normT t) env sc = (.ok route, sc1, tr))
    (hname : route.name = .MOEX) (hboard : truthyOpt route.board = true) :
    route.reason = none ∧
      ∃ t0 tables, sc1.lookup (pyUpper (normT t)) = some (t0, tables) ∧
        env.now - t0 < env.settings.CACHE_TTL_SEC := by
  rcases hst : _get_security_tables (normT t) env sc with ⟨res2, sc2, tr2⟩
  simp only [resolve_source, normT_idem, hst] at h
  split at h
  · simp only [Prod.mk.injEq] at h
    obtain ⟨h1, -, -⟩ := h
    cases Except.ok.inj h1
    simp [unknownRoute] at hname
  · split at h
    · simp only [Prod.mk.injEq] at h
      obtain ⟨h1, -, -⟩ := h
      cases Except.ok.inj h1
      simp [presetRoute] at hname
    · split at h
      · simp only [Prod.mk.injEq] at h
        obtain ⟨h1, -, -⟩ := h
        cases Except.ok.inj h1
        simp at hname
      · cases res2 with
        | error e =>
          cases e <;> simp only [Prod.mk.injEq] at h
          case request =>
            obtain ⟨fb, hfb, hnm⟩ := aggregator_route_total (normT t) "moex_unavailable"
            rw [hfb] at h
            simp only [Prod.mk.injEq] at h
            obtain ⟨h1, -, -⟩ := h
            cases Except.ok.inj h1
            rw [hnm] at hname
            exact absurd hname (by simp)
          case notFound =>
            obtain ⟨fb, hfb, hnm⟩ := aggregator_route_total (normT t) "unknown_ticker"
            rw [hfb] at h
            simp only [Prod.mk.injEq] at h
            obtain ⟨h1, -, -⟩ := h
            cases Except.ok.inj h1
            rw [hnm] at hname
            exact absurd hname (by simp)
          case marketData m => simp at h
          case aggregatorAuth => simp at h
        | ok tables =>
          simp only [Prod.mk.injEq] at h
          obtain ⟨h1, h2, -⟩ := h
          cases Except.ok.inj h1
          subst h2
          obtain ⟨t0, hlk, hlt⟩ := sec_tables_ok_fresh _ _ _ _ _ _ httl hst
          refine ⟨?_, t0, tables, hlk, hlt⟩
          unfold routeFromTables at hname hboard ⊢
          cases hpick : _pick_traded_board (pyOrRows (tlookup tables "boards") []) with
          | some row => simp [hpick, moexRouteOfBoardRow]
          | none =>
            obtain ⟨fb1, hfb1, hn1⟩ :=
              aggregator_route_total (normT t) "no_active_trading_on_moex"
            obtain ⟨fb2, hfb2, hn2⟩ := aggregator_route_total (normT t) "unknown_ticker"
            simp only [hpick, hfb1, hfb2] at hname hboard
            split at hname
            · rw [hn1] at hname
              exact absurd hname (by simp)
            · rw [hn2] at hname
              exact absurd hname (by simp)

/-- C4: for a MOEX-routed ticker with a resolved (truthy) board and market,
on a quote-cache miss: when the market-data response contains no live price
field, `get_quote` falls back to the same-day end-of-day close — if that
lookup returns `v` the quote carries `price = v` and
`reason = "eod_close_fallback"`; if it returns nothing the quote carries
`price = None` and `reason = "no_trades_no_history"`. -/
theorem C4_moex_eod_fallback :
    ∀ (t : String) (env : Env) (qc : QuoteCache) (sc : SecCache) (route : SourceRoute)
      (sc1 : SecCache) (tr1 : List HttpReq) (b m : String) (st : Nat) (body : Payload),
      0 < env.settings.CACHE_TTL_SEC →
      resolve_source (normT t) env sc = (.ok route, sc1, tr1) →
      route.name = .MOEX →
      route.board = some b → (b == "") = false →
      route.market = some m → (m == "") = false →
      qc.lookup (rnameStr RName.MOEX ++ ":" ++ route.symbol) = none →
      env.http (.marketdata (pyOrStr route.engine "stock") m b (normT t)) = .resp st body →
      status_exception st = false →
      _extract_price
        (moexMdRow (pyOrRows (tlookup (_parse_iss_tables body) "marketdata") []) b) = none →
      (∀ (v : ℚ) (trc : List HttpReq),
        get_daily_close_moex (normT t) b m env.nowDate env = (.ok (some v), trc) →
        ∃ q, (get_quote t env qc sc).1 = .ok q ∧
          q.price = some v ∧ q.reason = some "eod_close_fallback") ∧
      (∀ trc : List HttpReq,
        get_daily_close_moex (normT t) b m env.nowDate env = (.ok none, trc) →
        ∃ q, (get_quote t env qc sc).1 = .ok q ∧
          q.price = none ∧ q.reason = some "no_trades_no_history") := by
  intro t env qc sc route sc1 tr1 b m st body httl hres hname hboard hbne hmarket hmne
    hmiss hmd hstx hnoprice
  obtain ⟨hreason, t0, tables, hlk, hlt⟩ :=
    resolve_moex_fresh t env sc route sc1 tr1 httl hres hname (by simp [hboard, truthyOpt, hbne])
  have hsec2 : _get_security_tables (normT t) env sc1 = (.ok tables, sc1, []) := by
    simp only [_get_security_tables, hlk, if_pos hlt]
  constructor
  · intro v trc hdc
    simp only [get_quote, hres, hmiss, get_quote_fetch, hname, _get_moex_quote,
      hboard, hmarket, truthyOpt, hbne, hmne, Bool.not_false, Bool.not_true, Bool.false_or,
      Bool.or_self, Bool.false_eq_true, if_false, Option.getD_some, hsec2, hmd, hstx,
      hnoprice, hdc, Option.isSome_some, if_true]
    exact ⟨_, rfl, rfl, rfl⟩
  · intro trc hdc
    simp only [get_quote, hres, hmiss, get_quote_fetch, hname, _get_moex_quote,
      hboard, hmarket, truthyOpt, hbne, hmne, Bool.not_false, Bool.not_true, Bool.false_or,
      Bool.or_self, Bool.false_eq_true, if_false, Option.getD_some, hsec2, hmd, hstx,
      hnoprice, hdc, Option.isSome_none, Bool.false_eq_true, if_false]
    exact ⟨_, rfl, rfl, by rw [hreason]; rfl⟩

/-- Security payload for the C4 witness: one traded TQBR board. -/
def wSecBodyC4 : Payload :=
  .dict [("boards", .grid ["boardid", "is_traded", "market", "engine"]
            [[.str "TQBR", .num 1, .str "shares", .str "stock"]]),
         ("securities", .grid ["SECID", "FACEUNIT", "LOTSIZE"]
            [[.str "SBER", .str "SUR", .num 10]])]

/-- Market-data payload for the C4 witness: a timestamp but no price field. -/
def wMdBodyC4 : Payload :=
  .dict [("marketdata", .grid ["BOARDID", "SYSTIME"]
            [[.str "TQBR", .str "2024-10-01 12:00:00"]])]

/-- Environment for the C4 witness, end-of-day close present (248). -/
def wEnvC4a : Env :=
  { cEnvBase with
    http := fun req =>
      match req with
      | .security "SBER" => .resp 200 wSecBodyC4
      | .marketdata "stock" "shares" "TQBR" "SBER" => .resp 200 wMdBodyC4
      | .dailyClose "shares" "TQBR" "SBER" _ =>
        .resp 200 (.dict [("history", .grid ["TRADEDATE", "CLOSE"]
            [[.str "2024-10-01", .num 248]])])
      | _ => .exc }

/-- Environment for the C4 witness, end-of-day history empty. -/
def wEnvC4b : Env :=
  { cEnvBase with
    http := fun req =>
      match req with
      | .security "SBER" => .resp 200 wSecBodyC4
      | .marketdata "stock" "shares" "TQBR" "SBER" => .resp 200 wMdBodyC4
      | .dailyClose "shares" "TQBR" "SBER" _ =>
        .resp 200 (.dict [("history", .grid ["TRADEDATE", "CLOSE"] [])])
      | _ => .exc }

/-- The SBER route resolved in the C4 witness environments. -/
def sberRoute : SourceRoute :=
  { name := .MOEX, symbol := "SBER", board := some "TQBR", market := some "shares",
    engine := some "stock", currency := some "SUR" }

/-- Witness for C4: with only a timestamp in the market data, a 248.0 same-day
close produces `price = 248` with `reason = "eod_close_fallback"`, and an
empty close history produces `price = None` with
`reason = "no_trades_no_history"`. -/
theorem C4_moex_eod_fallback_witness :
    (∃ q, (get_quote "SBER" wEnvC4a [] []).1 = .ok q ∧
      q.price = some 248 ∧ q.reason = some "eod_close_fallback") ∧
    (∃ q, (get_quote "SBER" wEnvC4b [] []).1 = .ok q ∧
      q.price = none ∧ q.reason = some "no_trades_no_history") := by
  constructor
  · exact (C4_moex_eod_fallback "SBER" wEnvC4a [] [] sberRoute
      [("SBER", ((0 : ℚ), _parse_iss_tables wSecBodyC4))] [.security "SBER"]
      "TQBR" "shares" 200 wMdBodyC4 (by show (0 : ℚ) < 10; norm_num) rfl rfl rfl rfl rfl rfl rfl rfl rfl
      rfl).1 248 [.dailyClose "shares" "TQBR" "SBER" "1970-01-01"] rfl
  · exact (C4_moex_eod_fallback "SBER" wEnvC4b [] [] sberRoute
      [("SBER", ((0 : ℚ), _parse_iss_tables wSecBodyC4))] [.security "SBER"]
      "TQBR" "shares" 200 wMdBodyC4 (by show (0 : ℚ) < 10; norm_num) rfl rfl rfl rfl rfl rfl rfl rfl rfl
      rfl).2 [.dailyClose "shares" "TQBR" "SBER" "1970-01-01"] rfl

/-! ### C7: history pagination -/

theorem historyLoop_exc (env : Env) (e m t c : String) (days start : Nat)
    (collected : List Row)
    (h : env.http (.history e m t c start) = .exc) :
    historyLoop env e m t c days start collected = (collected, [.history e m t c start]) := by
  rw [historyLoop.eq_def]
  simp only [h]

theorem historyLoop_emptyrows (env : Env) (e m t c : String) (days start : Nat)
    (collected : List Row) (status : Nat) (body : Payload)
    (hh : env.http (.history e m t c start) = .resp status body)
    (hs : status_exception status = false)
    (hp : pyOrRows (tlookup (_parse_iss_tables body) "history") [] = []) :
    historyLoop env e m t c days start collected = (collected, [.history e m t c start]) := by
  rw [historyLoop.eq_def]
  simp only [hh, hs, Bool.false_eq_true, if_false, hp, dif_pos]

theorem historyLoop_page (env : Env) (e m t c : String) (days start : Nat)
    (collected : List Row) (status : Nat) (body : Payload) (p : List Row)
    (hh : env.http (.history e m t c start) = .resp status body)
    (hs : status_exception status = false)
    (hp : pyOrRows (tlookup (_parse_iss_tables body) "history") [] = p)
    (hne : p ≠ [])
    (hstop : p.length < 100 ∨ days ≤ (collected ++ p).length) :
    historyLoop env e m t c days start collected =
      (collected ++ p, [.history e m t c start]) := by
  rw [historyLoop.eq_def]
  simp only [hh, hs, Bool.false_eq_true, if_false, hp, dif_neg hne, dif_pos hstop]

/-- C7: history assembly paginates from offset 0, advancing by the page size,
and stops as soon as a page has fewer than 100 rows; the result is the ordered
concatenation of the fetched pages with their rows preserved; an upstream
error mid-way returns the rows accumulated so far; and a candidate yielding no
rows falls through to the remaining routing candidates, in order. -/
theorem C7_history_pagination :
    ∀ (ticker board : String) (days : Nat) (env : Env) (hc : HistCache)
      (e1 m1 : String) (rest : List (String × String)),
      hc.lookup (pyUpper ticker, pyUpper board, days) = none →
      _market_candidates (pyUpper board) = (e1, m1) :: rest →
      (∀ (s1 : Nat) (b1 : Payload) (p1 : List Row) (s2 : Nat) (b2 : Payload) (p2 : List Row),
        env.http (.history e1 m1 ticker (env.pastDate (days * 2)) 0) = .resp s1 b1 →
        status_exception s1 = false →
        pyOrRows (tlookup (_parse_iss_tables b1) "history") [] = p1 →
        100 ≤ p1.length → p1.length < days →
        env.http (.history e1 m1 ticker (env.pastDate (days * 2)) p1.length) = .resp s2 b2 →
        status_exception s2 = false →
        pyOrRows (tlookup (_parse_iss_tables b2) "history") [] = p2 →
        p2 ≠ [] → p2.length < 100 →
        get_security_history ticker board days env hc =
          (p1 ++ p2, dictPut (pyUpper ticker, pyUpper board, days) (env.now, p1 ++ p2) hc,
           [.history e1 m1 ticker (env.pastDate (days * 2)) 0,
            .history e1 m1 ticker (env.pastDate (days * 2)) p1.length])) ∧
      (∀ (s1 : Nat) (b1 : Payload) (p1 : List Row),
        env.http (.history e1 m1 ticker (env.pastDate (days * 2)) 0) = .resp s1 b1 →
        status_exception s1 = false →
        pyOrRows (tlookup (_parse_iss_tables b1) "history") [] = p1 →
        100 ≤ p1.length → p1.length < days →
        env.http (.history e1 m1 ticker (env.pastDate (days * 2)) p1.length) = .exc →
        get_security_history ticker board days env hc =
          (p1, dictPut (pyUpper ticker, pyUpper board, days) (env.now, p1) hc,
           [.history e1 m1 ticker (env.pastDate (days * 2)) 0,
            .history e1 m1 ticker (env.pastDate (days * 2)) p1.length])) ∧
      (∀ (s1 : Nat) (b1 : Payload),
        env.http (.history e1 m1 ticker (env.pastDate (days * 2)) 0) = .resp s1 b1 →
        status_exception s1 = false →
        pyOrRows (tlookup (_parse_iss_tables b1) "history") [] = [] →
        get_security_history ticker board days env hc =
          ((historyCandidates env ticker (env.pastDate (days * 2)) days rest).1,
           dictPut (pyUpper ticker, pyUpper board, days)
             (env.now, (historyCandidates env ticker (env.pastDate (days * 2)) days rest).1) hc,
           .history e1 m1 ticker (env.pastDate (days * 2)) 0 ::
             (historyCandidates env ticker (env.pastDate (days * 2)) days rest).2)) := by
  intro ticker board days env hc e1 m1 rest hmiss hroutes
  refine ⟨?_, ?_, ?_⟩
  · intro s1 b1 p1 s2 b2 p2 hh1 hs1 hp1 hlen1 hdays hh2 hs2 hp2 hne2 hlen2
    have hne1 : p1 ≠ [] := by
      intro h
      rw [h] at hlen1
      simp at hlen1
    have hcont : ¬(p1.length < 100 ∨ days ≤ p1.length) := by
      omega
    have hrec : historyLoop env e1 m1 ticker (env.pastDate (days * 2)) days p1.length p1 =
        (p1 ++ p2, [.history e1 m1 ticker (env.pastDate (days * 2)) p1.length]) :=
      historyLoop_page env e1 m1 ticker (env.pastDate (days * 2)) days p1.length p1
        s2 b2 p2 hh2 hs2 hp2 hne2 (Or.inl hlen2)
    have hloop : historyLoop env e1 m1 ticker (env.pastDate (days * 2)) days 0 [] =
        (p1 ++ p2,
         [.history e1 m1 ticker (env.pastDate (days * 2)) 0,
          .history e1 m1 ticker (env.pastDate (days * 2)) p1.length]) := by
      rw [historyLoop.eq_def]
      simp only [hh1, hs1, Bool.false_eq_true, if_false, hp1, dif_neg hne1, dif_neg hcont,
        Nat.zero_add, List.nil_append, hrec]
    have hne3 : ((p1 ++ p2 : List Row).isEmpty) = false := by
      cases p1 with
      | nil => exact absurd rfl hne1
      | cons a tl => rfl
    simp only [get_security_history, get_security_history.get_security_history_fetch,
      hmiss, hroutes, historyCandidates, hloop, hne3, Bool.false_eq_true, if_false]
  · intro s1 b1 p1 hh1 hs1 hp1 hlen1 hdays hh2
    have hne1 : p1 ≠ [] := by
      intro h
      rw [h] at hlen1
      simp at hlen1
    have hcont : ¬(p1.length < 100 ∨ days ≤ p1.length) := by
      omega
    have hrec : historyLoop env e1 m1 ticker (env.pastDate (days * 2)) days p1.length p1 =
        (p1, [.history e1 m1 ticker (env.pastDate (days * 2)) p1.length]) :=
      historyLoop_exc env e1 m1 ticker (env.pastDate (days * 2)) days p1.length p1 hh2
    have hloop : historyLoop env e1 m1 ticker (env.pastDate (days * 2)) days 0 [] =
        (p1,
         [.history e1 m1 ticker (env.pastDate (days * 2)) 0,
          .history e1 m1 ticker (env.pastDate (days * 2)) p1.length]) := by
      rw [historyLoop.eq_def]
      simp only [hh1, hs1, Bool.false_eq_true, if_false, hp1, dif_neg hne1, dif_neg hcont,
        Nat.zero_add, List.nil_append, hrec]
    have hne3 : ((p1 : List Row).isEmpty) = false := by
      cases p1 with
      | nil => exact absurd rfl hne1
      | cons a tl => rfl
    simp only [get_security_history, get_security_history.get_security_history_fetch,
      hmiss, hroutes, historyCandidates, hloop, hne3, Bool.false_eq_true, if_false]
  · intro s1 b1 hh1 hs1 hp1
    have hloop : historyLoop env e1 m1 ticker (env.pastDate (days * 2)) days 0 [] =
        ([], [.history e1 m1 ticker (env.pastDate (days * 2)) 0]) :=
      historyLoop_emptyrows env e1 m1 ticker (env.pastDate (days * 2)) days 0 [] s1 b1
        hh1 hs1 hp1
    simp only [get_security_history, get_security_history.get_security_history_fetch,
      hmiss, hroutes, historyCandidates, hloop, List.isEmpty_nil, if_true,
      List.singleton_append]

/-- First (full) page for the C7 witness: 100 rows. -/
def wP1C7 : List Row := List.replicate 100 [("CLOSE", JPrim.num 1)]

/-- Second (short) page for the C7 witness: 1 row. -/
def wP2C7 : List Row := [[("CLOSE", JPrim.num 2)]]

/-- Environment for the C7 witness: a full page at offset 0 and a short page
at offset 100. -/
def wEnvC7 : Env :=
  { cEnvBase with
    http := fun req =>
      match req with
      | .history "stock" "shares" "SBER" _ 0 => .resp 200 (.dict [("history", .rows wP1C7)])
      | .history "stock" "shares" "SBER" _ 100 => .resp 200 (.dict [("history", .rows wP2C7)])
      | _ => .exc }

/-- Witness for C7: two pages, the second shorter than the full-page
threshold; assembly requests offsets 0 and 100 and returns the concatenation
of both pages. -/
theorem C7_history_pagination_witness :
    get_security_history "SBER" "TQBR" 260 wEnvC7 [] =
      (wP1C7 ++ wP2C7,
       dictPut ("SBER", "TQBR", 260) ((0 : ℚ), wP1C7 ++ wP2C7) [],
       [.history "stock" "shares" "SBER" "1968-01-01" 0,
        .history "stock" "shares" "SBER" "1968-01-01" 100]) :=
  (C7_history_pagination "SBER" "TQBR" 260 wEnvC7 [] "stock" "shares" [] rfl rfl).1
    200 (.dict [("history", .rows wP1C7)]) wP1C7
    200 (.dict [("history", .rows wP2C7)]) wP2C7
    rfl rfl rfl (by norm_num [wP1C7]) (by norm_num [wP1C7])
    rfl rfl rfl (by norm_num [wP2C7]) (by norm_num [wP2C7])

/-! ### C1: quote-cache TTL behaviour -/

theorem binance_trace (tk : String) (route : SourceRoute) (env : Env) :
    (_get_binance_quote tk route env).2 = [.binance route.symbol] := by
  simp only [_get_binance_quote]
  split
  · rfl
  · split
    · rfl
    · split <;> rfl

theorem td_trace (tk : String) (route : SourceRoute) (env : Env)
    (hk : truthyOpt env.settings.TWELVEDATA_API_KEY = true) :
    (_fetch_twelvedata_quote tk route env).2 = [.twelvedata route.symbol] := by
  simp only [_fetch_twelvedata_quote, hk, Bool.not_true, Bool.false_eq_true, if_false]
  split
  · rfl
  · split
    · rfl
    · split
      · rfl
      · split
        · split
          · rfl
          · split <;> rfl
        · split <;> rfl

theorem agg_trace_mem (tk : String) (route : SourceRoute) (env : Env)
    (hk : truthyOpt env.settings.TWELVEDATA_API_KEY = true) :
    HttpReq.twelvedata route.symbol ∈ (_get_aggregator_quote tk route env).2 := by
  have htd := td_trace tk route env hk
  rcases hf : _fetch_twelvedata_quote tk route env with ⟨r, tr⟩
  rw [hf] at htd
  simp only at htd
  subst htd
  simp only [_get_aggregator_quote, hf]
  rcases r with e | oq
  · cases e with
    | request => simp
    | notFound => simp
    | aggregatorAuth => simp
    | marketData m =>
      rcases hfin : _fetch_finnhub_quote tk route env with ⟨r2, tr2⟩
      rcases r2 with e2 | oq2
      · simp [hfin]
      · rcases oq2 with _ | q2
        · simp only [hfin]
          split <;> simp
        · simp [hfin]
  · rcases oq with _ | q
    · rcases hfin : _fetch_finnhub_quote tk route env with ⟨r2, tr2⟩
      rcases r2 with e2 | oq2
      · simp [hfin]
      · rcases oq2 with _ | q2
        · simp only [hfin]
          split <;> simp
        · simp [hfin]
    · simp

theorem moex_md_mem (tk : String) (route : SourceRoute) (env : Env) (sc : SecCache)
    (tables : Tables) (res : Except PErr Quote) (sc2 : SecCache) (tr2 : List HttpReq)
    (hb : truthyOpt route.board = true) (hm : truthyOpt route.market = true)
    (hsec : _get_security_tables tk env sc = (.ok tables, sc, []))
    (hmq : _get_moex_quote tk route env sc = (res, sc2, tr2)) :
    HttpReq.marketdata (pyOrStr route.engine "stock") (route.market.getD "")
      (route.board.getD "") tk ∈ tr2 := by
  simp only [_get_moex_quote, hb, hm, Bool.not_true, Bool.or_self, Bool.false_eq_true,
    if_false, hsec] at hmq
  split at hmq <;> (try split at hmq) <;> (try split at hmq) <;> (try split at hmq) <;>
    (simp only [Prod.mk.injEq] at hmq
     obtain ⟨-, -, h3⟩ := hmq
     subst h3
     simp)

theorem resolve_replay (env1 env2 : Env) (targ : String) (route : SourceRoute)
    (sc1 : SecCache) (tr1 : List HttpReq)
    (hhttp : env2.http = env1.http) (hset : env2.settings = env1.settings)
    (h : resolve_source targ env1 [] = (.ok route, sc1, tr1)) :
    ∃ sc2 tr2, resolve_source targ env2 sc1 = (.ok route, sc2, tr2) ∧
      (env2.now - env1.now < env1.settings.CACHE_TTL_SEC → sc2 = sc1) := by
  by_cases hb : (normT targ == "") = true
  · simp only [resolve_source, hb, if_true, Prod.mk.injEq] at h
    obtain ⟨h1, h2, -⟩ := h
    cases Except.ok.inj h1
    subst h2
    refine ⟨[], [], ?_, fun _ => rfl⟩
    simp only [resolve_source, hb, if_true]
  · have hbf : (normT targ == "") = false := by simpa using hb
    cases hp : _ALWAYS_AGGREGATOR.lookup (normT targ) with
    | some preset =>
      simp only [resolve_source, hbf, Bool.false_eq_true, if_false, hp,
        Prod.mk.injEq] at h
      obtain ⟨h1, h2, -⟩ := h
      cases Except.ok.inj h1
      subst h2
      refine ⟨[], [], ?_, fun _ => rfl⟩
      simp only [resolve_source, hbf, Bool.false_eq_true, if_false, hp]
    | none =>
      by_cases hc : _crypto_pair_match (normT targ) = true
      · simp only [resolve_source, hbf, Bool.false_eq_true, if_false, hp, hc, if_true,
          Prod.mk.injEq] at h
        obtain ⟨h1, h2, -⟩ := h
        cases Except.ok.inj h1
        subst h2
        refine ⟨[], [], ?_, fun _ => rfl⟩
        simp only [resolve_source, hbf, Bool.false_eq_true, if_false, hp, hc, if_true]
      · have hcf : _crypto_pair_match (normT targ) = false := by simpa using hc
        cases hout : env1.http (.security (pyUpper (normT targ))) with
        | exc =>
          have hst1 : _get_security_tables (normT targ) env1 [] =
              (.error .request, [], [.security (pyUpper (normT targ))]) := by
            simp only [_get_security_tables, List.lookup_nil, _get_security_tables_fetch,
              hout]
          have hst2 : _get_security_tables (normT targ) env2 [] =
              (.error .request, [], [.security (pyUpper (normT targ))]) := by
            simp only [_get_security_tables, List.lookup_nil, _get_security_tables_fetch,
              hhttp, hout]
          obtain ⟨fb, hfb, -⟩ := aggregator_route_total (normT targ) "moex_unavailable"
          simp only [resolve_source, hbf, Bool.false_eq_true, if_false, hp, hcf, hst1,
            hfb, Prod.mk.injEq] at h
          obtain ⟨h1, h2, -⟩ := h
          cases Except.ok.inj h1
          subst h2
          refine ⟨[], [.security (pyUpper (normT targ))], ?_, fun _ => rfl⟩
          simp only [resolve_source, hbf, Bool.false_eq_true, if_false, hp, hcf, hst2, hfb]
        | resp status body =>
          by_cases h404 : (status == 404) = true
          · have hst1 : _get_security_tables (normT targ) env1 [] =
                (.error .notFound, [], [.security (pyUpper (normT targ))]) := by
              simp only [_get_security_tables, List.lookup_nil, _get_security_tables_fetch,
                hout, h404, if_true]
            have hst2 : _get_security_tables (normT targ) env2 [] =
                (.error .notFound, [], [.security (pyUpper (normT targ))]) := by
              simp only [_get_security_tables, List.lookup_nil, _get_security_tables_fetch,
                hhttp, hout, h404, if_true]
            obtain ⟨fb, hfb, -⟩ := aggregator_route_total (normT targ) "unknown_ticker"
            simp only [resolve_source, hbf, Bool.false_eq_true, if_false, hp, hcf, hst1,
              hfb, Prod.mk.injEq] at h
            obtain ⟨h1, h2, -⟩ := h
            cases Except.ok.inj h1
            subst h2
            refine ⟨[], [.security (pyUpper (normT targ))], ?_, fun _ => rfl⟩
            simp only [resolve_source, hbf, Bool.false_eq_true, if_false, hp, hcf, hst2,
              hfb]
          · have h404f : (status == 404) = false := by simpa using h404
            by_cases hsx : status_exception status = true
            · have hst1 : _get_security_tables (normT targ) env1 [] =
                  (.error .request, [], [.security (pyUpper (normT targ))]) := by
                simp only [_get_security_tables, List.lookup_nil,
                  _get_security_tables_fetch, hout, h404f, Bool.false_eq_true, if_false,
                  hsx, if_true]
              have hst2 : _get_security_tables (normT targ) env2 [] =
                  (.error .request, [], [.security (pyUpper (normT targ))]) := by
                simp only [_get_security_tables, List.lookup_nil,
                  _get_security_tables_fetch, hhttp, hout, h404f, Bool.false_eq_true,
                  if_false, hsx, if_true]
              obtain ⟨fb, hfb, -⟩ := aggregator_route_total (normT targ) "moex_unavailable"
              simp only [resolve_source, hbf, Bool.false_eq_true, if_false, hp, hcf, hst1,
                hfb, Prod.mk.injEq] at h
              obtain ⟨h1, h2, -⟩ := h
              cases Except.ok.inj h1
              subst h2
              refine ⟨[], [.security (pyUpper (normT targ))], ?_, fun _ => rfl⟩
              simp only [resolve_source, hbf, Bool.false_eq_true, if_false, hp, hcf, hst2,
                hfb]
            · have hsxf : status_exception status = false := by simpa using hsx
              have hst1 : _get_security_tables (normT targ) env1 [] =
                  (.ok (_parse_iss_tables body),
                   dictPut (pyUpper (normT targ)) (env1.now, _parse_iss_tables body) [],
                   [.security (pyUpper (normT targ))]) := by
                simp only [_get_security_tables, List.lookup_nil,
                  _get_security_tables_fetch, hout, h404f, Bool.false_eq_true, if_false,
                  hsxf]
              simp only [resolve_source, hbf, Bool.false_eq_true, if_false, hp, hcf, hst1,
                Prod.mk.injEq] at h
              obtain ⟨h1, h2, -⟩ := h
              cases Except.ok.inj h1
              subst h2
              by_cases hlt : env2.now - env1.now < env1.settings.CACHE_TTL_SEC
              · have hst2 : _get_security_tables (normT targ) env2
                    (dictPut (pyUpper (normT targ)) (env1.now, _parse_iss_tables body) []) =
                    (.ok (_parse_iss_tables body),
                     dictPut (pyUpper (normT targ)) (env1.now, _parse_iss_tables body) [],
                     []) := by
                  simp only [_get_security_tables, dictPut_lookup, hset,
                    if_pos hlt]
                refine ⟨_, [], ?_, fun _ => rfl⟩
                simp only [resolve_source, hbf, Bool.false_eq_true, if_false, hp, hcf,
                  hst2]
              · have hnlt : ¬(env2.now - env1.now < env2.settings.CACHE_TTL_SEC) := by
                  rw [hset]
                  exact hlt
                have hst2 : _get_security_tables (normT targ) env2
                    (dictPut (pyUpper (normT targ)) (env1.now, _parse_iss_tables body) []) =
                    (.ok (_parse_iss_tables body),
                     dictPut (pyUpper (normT targ)) (env2.now, _parse_iss_tables body)
                       (dictPut (pyUpper (normT targ)) (env1.now, _parse_iss_tables body) []),
                     [.security (pyUpper (normT targ))]) := by
                  simp only [_get_security_tables, dictPut_lookup, if_neg hnlt,
                    _get_security_tables_fetch, hhttp, hout, h404f, Bool.false_eq_true,
                    if_false, hsxf]
                refine ⟨dictPut (pyUpper (normT targ)) (env2.now, _parse_iss_tables body)
                    (dictPut (pyUpper (normT targ)) (env1.now, _parse_iss_tables body) []),
                  [.security (pyUpper (normT targ))], ?_, fun hcontra => ?_⟩
                · simp only [resolve_source, hbf, Bool.false_eq_true, if_false, hp, hcf,
                    hst2]
                · exact absurd hcontra hlt

theorem sec_tables_hit (k : String) (env : Env) (sc : SecCache) (t0 : ℚ) (tables : Tables)
    (hl : sc.lookup (pyUpper k) = some (t0, tables))
    (hf : env.now - t0 < env.settings.CACHE_TTL_SEC) :
    _get_security_tables k env sc = (.ok tables, sc, []) := by
  simp only [_get_security_tables, hl, if_pos hf]

theorem moex_sec_unchanged (tk : String) (route : SourceRoute) (env : Env) (sc : SecCache)
    (tables : Tables)
    (hsec : _get_security_tables tk env sc = (.ok tables, sc, [])) :
    (_get_moex_quote tk route env sc).2.1 = sc := by
  simp only [_get_moex_quote]
  split
  · rfl
  · simp only [hsec]
    split <;> (try split) <;> (try split) <;> (try split) <;> rfl

theorem agg_priced_key (tk : String) (route : SourceRoute) (env : Env)
    (q : Quote) (tr : List HttpReq) (p : ℚ)
    (h : _get_aggregator_quote tk route env = (.ok q, tr)) (hp : q.price = some p) :
    truthyOpt env.settings.TWELVEDATA_API_KEY = true := by
  by_contra hk
  have hkf : truthyOpt env.settings.TWELVEDATA_API_KEY = false := by simpa using hk
  have htd : _fetch_twelvedata_quote tk route env = (.error .aggregatorAuth, []) := by
    simp only [_fetch_twelvedata_quote, hkf, Bool.not_false, if_true]
  simp only [_get_aggregator_quote, htd, Prod.mk.injEq] at h
  cases Except.ok.inj h.1
  simp [missingKeyQuote] at hp

theorem get_quote_fetch_trace (n : String) (route : SourceRoute) (key : String)
    (env : Env) (qc : QuoteCache) (sc : SecCache) (tr : List HttpReq) :
    ∃ ftr, (get_quote_fetch n route key env qc sc tr).2.2.2 = tr ++ ftr ∧
      (route.name = .MOEX → ftr = (_get_moex_quote n route env sc).2.2) ∧
      (route.name = .BINANCE → ftr = (_get_binance_quote n route env).2) ∧
      (route.name = .AGGREGATOR → ftr = (_get_aggregator_quote n route env).2) := by
  rcases hn : route.name with _ | _ | _ | _
  · rcases hmq : _get_moex_quote n route env sc with ⟨mres, msc, mtr⟩
    refine ⟨mtr, ?_, fun _ => by simp [hmq], by simp [hn], by simp [hn]⟩
    simp only [get_quote_fetch, hn, hmq]
    cases mres with
    | error e => rfl
    | ok q => cases hq : q.price.isSome <;> simp [hq]
  · rcases hbq : _get_binance_quote n route env with ⟨br, btr⟩
    refine ⟨btr, ?_, by simp [hn], fun _ => by simp [hbq], by simp [hn]⟩
    simp only [get_quote_fetch, hn, hbq]
    cases br with
    | error e => rfl
    | ok q => cases hq : q.price.isSome <;> simp [hq]
  · rcases hag : _get_aggregator_quote n route env with ⟨ar, atr⟩
    refine ⟨atr, ?_, by simp [hn], by simp [hn], fun _ => by simp [hag]⟩
    simp only [get_quote_fetch, hn, hag]
    cases ar with
    | error e => rfl
    | ok q => cases hq : q.price.isSome <;> simp [hq]
  · refine ⟨[], ?_, by simp [hn], by simp [hn], by simp [hn]⟩
    simp [get_quote_fetch, hn, unknownQuote]

theorem get_quote_priced_shape (t : String) (env : Env) (q1 : Quote)
    (qc1 : QuoteCache) (sc1 : SecCache) (tr1 : List HttpReq) (p : ℚ)
    (httl : 0 < env.settings.CACHE_TTL_SEC)
    (h : get_quote t env [] [] = (.ok q1, qc1, sc1, tr1))
    (hp : q1.price = some p) :
    ∃ route rtr,
      resolve_source (normT t) env [] = (.ok route, sc1, rtr) ∧
      qc1 = dictPut (rnameStr route.name ++ ":" ++ route.symbol) (env.now, q1) [] ∧
      route.name ≠ .UNKNOWN ∧
      (route.name = .MOEX → truthyOpt route.board = true ∧ truthyOpt route.market = true) ∧
      (route.name = .AGGREGATOR → truthyOpt env.settings.TWELVEDATA_API_KEY = true) := by
  rcases hres : resolve_source (normT t) env [] with ⟨res, sc1t, rtr⟩
  cases res with
  | error e =>
    simp only [get_quote, hres, Prod.mk.injEq] at h
    exact absurd h.1 (by simp)
  | ok route =>
    simp only [get_quote, hres, List.lookup_nil] at h
    refine ⟨route, ?_⟩
    rcases hn : route.name with _ | _ | _ | _
    · by_cases hbm : (!(truthyOpt route.board) || !(truthyOpt route.market)) = true
      · have hmq : _get_moex_quote (normT t) route env sc1t =
            (.ok { ticker := normT t, price := none,
                   currency := pyOrStr route.currency "SUR",
                   ts_utc := none, source := .MOEX, board := route.board,
                   market := route.market,
                   reason := some (pyOrStr route.reason "no_active_trading_on_moex") },
             sc1t, []) := by
          simp only [_get_moex_quote, hbm, if_true]
        simp only [get_quote_fetch, hn, hmq, Option.isSome_none, Bool.false_eq_true,
          if_false, Prod.mk.injEq] at h
        cases Except.ok.inj h.1
        simp at hp
      · have hb : truthyOpt route.board = true := by
          cases hx : truthyOpt route.board
          · exact absurd (by simp [hx]) hbm
          · rfl
        have hm : truthyOpt route.market = true := by
          cases hx : truthyOpt route.market
          · exact absurd (by simp [hx]) hbm
          · rfl
        obtain ⟨-, t0, tables, hlk, hfr⟩ :=
          resolve_moex_fresh t env [] route sc1t rtr httl hres hn hb
        have hsec : _get_security_tables (normT t) env sc1t = (.ok tables, sc1t, []) :=
          sec_tables_hit (normT t) env sc1t t0 tables hlk hfr
        rcases hmq : _get_moex_quote (normT t) route env sc1t with ⟨mres, msc, mtr⟩
        have hmsc : msc = sc1t := by
          have hu := moex_sec_unchanged (normT t) route env sc1t tables hsec
          rw [hmq] at hu
          exact hu
        subst hmsc
        simp only [get_quote_fetch, hn, hmq] at h
        cases mres with
        | error e => simp at h
        | ok q =>
          by_cases hq : q.price.isSome = true
          · simp only [hq, if_true, Prod.mk.injEq] at h
            obtain ⟨h1, h2, h3, -⟩ := h
            cases Except.ok.inj h1
            subst h3
            exact ⟨rtr, rfl, h2.symm, by simp [hn], fun _ => ⟨hb, hm⟩, by simp [hn]⟩
          · have hqf : q.price.isSome = false := by simpa using hq
            simp only [hqf, Bool.false_eq_true, if_false, Prod.mk.injEq] at h
            obtain ⟨h1, -, -, -⟩ := h
            cases Except.ok.inj h1
            simp [hp] at hq
    · rcases hbq : _get_binance_quote (normT t) route env with ⟨br, btr⟩
      simp only [get_quote_fetch, hn, hbq] at h
      cases br with
      | error e => simp at h
      | ok q =>
        by_cases hq : q.price.isSome = true
        · simp only [hq, if_true, Prod.mk.injEq] at h
          obtain ⟨h1, h2, h3, -⟩ := h
          cases Except.ok.inj h1
          subst h3
          exact ⟨rtr, rfl, h2.symm, by simp [hn], by simp [hn], by simp [hn]⟩
        · have hqf : q.price.isSome = false := by simpa using hq
          simp only [hqf, Bool.false_eq_true, if_false, Prod.mk.injEq] at h
          obtain ⟨h1, -, -, -⟩ := h
          cases Except.ok.inj h1
          simp [hp] at hq
    · rcases hag : _get_aggregator_quote (normT t) route env with ⟨ar, atr⟩
      simp only [get_quote_fetch, hn, hag] at h
      cases ar with
      | error e => simp at h
      | ok q =>
        by_cases hq : q.price.isSome = true
        · simp only [hq, if_true, Prod.mk.injEq] at h
          obtain ⟨h1, h2, h3, -⟩ := h
          cases Except.ok.inj h1
          subst h3
          refine ⟨rtr, rfl, h2.symm, by simp [hn], by simp [hn],
            fun _ => agg_priced_key (normT t) route env _ atr p hag hp⟩
        · have hqf : q.price.isSome = false := by simpa using hq
          simp only [hqf, Bool.false_eq_true, if_false, Prod.mk.injEq] at h
          obtain ⟨h1, -, -, -⟩ := h
          cases Except.ok.inj h1
          simp [hp] at hq
    · simp only [get_quote_fetch, hn, unknownQuote, Option.isSome_none, Bool.false_eq_true,
        if_false, Prod.mk.injEq] at h
      cases Except.ok.inj h.1
      simp at hp

/-- C1 (amended): for a cold start whose first `get_quote` call returns a quote with a
non-null price, a second call within the cache TTL window is served from the quote
cache — it returns the same quote, leaves the quote cache unchanged, and any
upstream requests it issues are security-resolution requests only (no new quote
fetch); a second call after the TTL has expired performs a fresh quote fetch,
issuing at least one non-resolution upstream request. The original claim's
"exactly one upstream call in total" does not hold: the first call issues one
upstream call per cold cache slot (resolution plus quote fetch), and quotes with a
null price are never cached, so a repeat call within the TTL refetches them. -/
theorem C1_quote_cache_ttl (env1 env2 : Env) (t : String) (q1 : Quote)
    (qc1 : QuoteCache) (sc1 : SecCache) (tr1 : List HttpReq) (p : ℚ)
    (hhttp : env2.http = env1.http) (hset : env2.settings = env1.settings)
    (httl : 0 < env1.settings.CACHE_TTL_SEC)
    (h1 : get_quote t env1 [] [] = (.ok q1, qc1, sc1, tr1))
    (hp : q1.price = some p) :
    (env2.now - env1.now < env1.settings.CACHE_TTL_SEC →
      ∃ sc2 tr2, get_quote t env2 qc1 sc1 = (.ok q1, qc1, sc2, tr2) ∧
        ∀ r ∈ tr2, r.isSecurity = true) ∧
    (env1.settings.CACHE_TTL_SEC ≤ env2.now - env1.now →
      ∃ res2 qc2 sc2 tr2, get_quote t env2 qc1 sc1 = (res2, qc2, sc2, tr2) ∧
        ∃ r ∈ tr2, r.isSecurity = false) := by
  obtain ⟨route, rtr, hres1, hqc, hne, hmoex, hagg⟩ :=
    get_quote_priced_shape t env1 q1 qc1 sc1 tr1 p httl h1 hp
  obtain ⟨sc2t, tr2t, hres2, hpres⟩ :=
    resolve_replay env1 env2 (normT t) route sc1 rtr hhttp hset hres1
  have hlk : qc1.lookup (rnameStr route.name ++ ":" ++ route.symbol) =
      some (env1.now, q1) := by
    rw [hqc]
    exact dictPut_lookup _ _ _
  constructor
  · intro hlt
    have hlt2 : env2.now - env1.now < env2.settings.CACHE_TTL_SEC := by
      rw [hset]
      exact hlt
    refine ⟨sc2t, tr2t, ?_, resolve_trace_security (normT t) env2 sc1 _ _ _ hres2⟩
    simp only [get_quote, hres2, hlk]
    rw [if_pos hlt2]
  · intro hge
    have hnlt : ¬(env2.now - env1.now < env2.settings.CACHE_TTL_SEC) := by
      rw [hset]
      exact not_lt.mpr hge
    have hgq : get_quote t env2 qc1 sc1 =
        get_quote_fetch (normT t) route (rnameStr route.name ++ ":" ++ route.symbol)
          env2 qc1 sc2t tr2t := by
      simp only [get_quote, hres2, hlk]
      rw [if_neg hnlt]
    obtain ⟨ftr, htr, hfm, hfb, hfa⟩ :=
      get_quote_fetch_trace (normT t) route (rnameStr route.name ++ ":" ++ route.symbol)
        env2 qc1 sc2t tr2t
    refine ⟨(get_quote_fetch (normT t) route (rnameStr route.name ++ ":" ++ route.symbol)
        env2 qc1 sc2t tr2t).1,
      (get_quote_fetch (normT t) route (rnameStr route.name ++ ":" ++ route.symbol)
        env2 qc1 sc2t tr2t).2.1,
      (get_quote_fetch (normT t) route (rnameStr route.name ++ ":" ++ route.symbol)
        env2 qc1 sc2t tr2t).2.2.1,
      (get_quote_fetch (normT t) route (rnameStr route.name ++ ":" ++ route.symbol)
        env2 qc1 sc2t tr2t).2.2.2, hgq.trans rfl, ?_⟩
    rw [htr]
    rcases hn : route.name with _ | _ | _ | _
    · obtain ⟨hb, hm⟩ := hmoex hn
      have httl2 : 0 < env2.settings.CACHE_TTL_SEC := by
        rw [hset]
        exact httl
      obtain ⟨-, t0, tables, hlk2, hfr2⟩ :=
        resolve_moex_fresh t env2 sc1 route sc2t tr2t httl2 hres2 hn hb
      have hsec2 : _get_security_tables (normT t) env2 sc2t = (.ok tables, sc2t, []) :=
        sec_tables_hit (normT t) env2 sc2t t0 tables hlk2 hfr2
      rcases hmq : _get_moex_quote (normT t) route env2 sc2t with ⟨mres, msc, mtr⟩
      have hmem := moex_md_mem (normT t) route env2 sc2t tables mres msc mtr hb hm hsec2 hmq
      refine ⟨HttpReq.marketdata (pyOrStr route.engine "stock") (route.market.getD "")
        (route.board.getD "") (normT t), ?_, rfl⟩
      rw [hfm hn, hmq]
      exact List.mem_append.mpr (Or.inr hmem)
    · refine ⟨HttpReq.binance route.symbol, ?_, rfl⟩
      rw [hfb hn, binance_trace (normT t) route env2]
      simp
    · have hk2 : truthyOpt env2.settings.TWELVEDATA_API_KEY = true := by
        rw [hset]
        exact hagg hn
      refine ⟨HttpReq.twelvedata route.symbol, ?_, rfl⟩
      rw [hfa hn]
      exact List.mem_append.mpr (Or.inr (agg_trace_mem (normT t) route env2 hk2))
    · exact absurd hn hne

/-- Environment for the C1 witness: Binance answers with a price; the first
call happens at time 0 with a 10-second TTL. -/
def wEnvC1 : Env :=
  { cEnvBase with
    http := fun req =>
      match req with
      | .binance _ => .resp 200 (.dict [("price", .prim (.num 97000))])
      | _ => .exc }

/-- The C1 witness environment five seconds later (within the TTL). -/
def wEnvC1Later : Env := { wEnvC1 with now := 5 }

/-- The quote the C1 witness's first call returns and caches. -/
def wQC1 : Quote :=
  { ticker := "BTCUSDT", price := some 97000, currency := "USDT",
    ts_utc := some "1970-01-01T00:00:00Z", source := .BINANCE }

/-- Witness for C1: after a first `get_quote "BTCUSDT"` call at time 0 returned
a priced quote and cached it, a second call at time 5 (within the 10-second
TTL) returns the same quote, leaves the quote cache unchanged, and issues no
non-resolution upstream request. -/
theorem C1_quote_cache_ttl_witness :
    ∃ sc2 tr2,
      get_quote "BTCUSDT" wEnvC1Later [("BINANCE:BTCUSDT", ((0 : ℚ), wQC1))] [] =
        (.ok wQC1, [("BINANCE:BTCUSDT", ((0 : ℚ), wQC1))], sc2, tr2) ∧
      ∀ r ∈ tr2, r.isSecurity = true :=
  (C1_quote_cache_ttl wEnvC1 wEnvC1Later "BTCUSDT" wQC1
      [("BINANCE:BTCUSDT", ((0 : ℚ), wQC1))] [] [.binance "BTCUSDT"] 97000
      rfl rfl (by show (0 : ℚ) < 10; norm_num) rfl rfl).1
    (by show (5 : ℚ) - 0 < 10; norm_num)

/-- Security cache contents after the C1 counterexample's first call. -/
def scC1 : SecCache := [("SBER", ((0 : ℚ), _parse_iss_tables wSecBodyC4))]

/-- The degraded (price-less) quote of the C1 counterexample. -/
def qC1 : Quote :=
  { ticker := "SBER", price := none, currency := "SUR", ts_utc := none,
    source := .MOEX, board := some "TQBR", market := some "shares",
    reason := some "no_trades_no_history", lot := some 10 }

/-- The C1 counterexample environment five seconds after `wEnvC4b`
(within the 10-second TTL). -/
def wEnvC4bLater : Env := { wEnvC4b with now := 5 }

/-- Counterexample to C1 as originally stated: for ticker `"SBER"` against an
exchange that reports market data without a price and an empty close history,
the first `get_quote` call issues three upstream calls, returns a price-less
quote and stores nothing in the quote cache, and a second call five seconds
later — within the 10-second TTL — is not served from the quote cache: it
issues two further upstream calls (market data and daily close again). The two
calls together issue five upstream calls, not exactly one. -/
theorem C1_quote_cache_ttl_counterexample :
    get_quote "SBER" wEnvC4b [] [] =
      (.ok qC1, [], scC1,
       [.security "SBER", .marketdata "stock" "shares" "TQBR" "SBER",
        .dailyClose "shares" "TQBR" "SBER" "1970-01-01"]) ∧
    get_quote "SBER" wEnvC4bLater [] scC1 =
      (.ok qC1, [], scC1,
       [.marketdata "stock" "shares" "TQBR" "SBER",
        .dailyClose "shares" "TQBR" "SBER" "1970-01-01"]) ∧
    wEnvC4bLater.now - wEnvC4b.now < wEnvC4b.settings.CACHE_TTL_SEC ∧
    ([HttpReq.security "SBER", HttpReq.marketdata "stock" "shares" "TQBR" "SBER",
      HttpReq.dailyClose "shares" "TQBR" "SBER" "1970-01-01"].length +
     [HttpReq.marketdata "stock" "shares" "TQBR" "SBER",
      HttpReq.dailyClose "shares" "TQBR" "SBER" "1970-01-01"].length ≠ 1) := by
  have hfr1 : wEnvC4b.now - (0 : ℚ) < wEnvC4b.settings.CACHE_TTL_SEC := by
    show (0 : ℚ) - 0 < 10
    norm_num
  have hsec1 : _get_security_tables "SBER" wEnvC4b scC1 =
      (.ok (_parse_iss_tables wSecBodyC4), scC1, []) :=
    sec_tables_hit "SBER" wEnvC4b scC1 0 (_parse_iss_tables wSecBodyC4) rfl hfr1
  have hres1 : resolve_source "SBER" wEnvC4b [] = (.ok sberRoute, scC1, [.security "SBER"]) := by
    rfl
  have hmq1 : _get_moex_quote "SBER" sberRoute wEnvC4b scC1 =
      (.ok qC1, scC1,
       [.marketdata "stock" "shares" "TQBR" "SBER",
        .dailyClose "shares" "TQBR" "SBER" "1970-01-01"]) := by
    unfold _get_moex_quote
    rw [hsec1]
    rfl
  have hfet1 : get_quote_fetch "SBER" sberRoute
      (rnameStr sberRoute.name ++ ":" ++ sberRoute.symbol) wEnvC4b [] scC1
      [.security "SBER"] =
      (.ok qC1, [], scC1,
       [.security "SBER", .marketdata "stock" "shares" "TQBR" "SBER",
        .dailyClose "shares" "TQBR" "SBER" "1970-01-01"]) := by
    unfold get_quote_fetch
    rw [hmq1]
    rfl
  have hfr : wEnvC4bLater.now - (0 : ℚ) < wEnvC4bLater.settings.CACHE_TTL_SEC := by
    show (5 : ℚ) - 0 < 10
    norm_num
  have hsec2 : _get_security_tables "SBER" wEnvC4bLater scC1 =
      (.ok (_parse_iss_tables wSecBodyC4), scC1, []) :=
    sec_tables_hit "SBER" wEnvC4bLater scC1 0 (_parse_iss_tables wSecBodyC4) rfl hfr
  have hnorm : normT "SBER" = "SBER" := rfl
  have hres2 : resolve_source "SBER" wEnvC4bLater scC1 = (.ok sberRoute, scC1, []) := by
    simp only [resolve_source, hnorm]
    rw [hsec2]
    rfl
  have hmq2 : _get_moex_quote "SBER" sberRoute wEnvC4bLater scC1 =
      (.ok qC1, scC1,
       [.marketdata "stock" "shares" "TQBR" "SBER",
        .dailyClose "shares" "TQBR" "SBER" "1970-01-01"]) := by
    unfold _get_moex_quote
    rw [hsec2]
    rfl
  have hfet : get_quote_fetch "SBER" sberRoute
      (rnameStr sberRoute.name ++ ":" ++ sberRoute.symbol) wEnvC4bLater [] scC1 [] =
      (.ok qC1, [], scC1,
       [.marketdata "stock" "shares" "TQBR" "SBER",
        .dailyClose "shares" "TQBR" "SBER" "1970-01-01"]) := by
    unfold get_quote_fetch
    rw [hmq2]
    rfl
  refine ⟨?_, ?_, by show (5 : ℚ) - 0 < 10; norm_num, by decide⟩
  · simp only [get_quote, hnorm, hres1, List.lookup_nil, hfet1]
  · simp only [get_quote, hnorm, hres2, List.lookup_nil, hfet]
